import Mathlib

/-!
# The `/generate-apk` build pipeline of `server.js`

A shallow embedding of the request handler registered by `app.post('/generate-apk', ...)`:
the text transformations it applies (artifact name, wrapper document, manifest rewrite),
the `path.join` normalisation it relies on, a small model of the `fs` calls it makes, and
the handler itself as a function of the request, the filesystem and the outcomes of the
external tools.
-/

namespace Studio

/-! ## Text helpers -/

/-- Characters matched by the JavaScript regular-expression class `\s`
(ECMAScript WhiteSpace and LineTerminator code points). -/
def isJsSpace (c : Char) : Bool :=
  c.val = 0x09 || c.val = 0x0A || c.val = 0x0B || c.val = 0x0C || c.val = 0x0D ||
  c.val = 0x20 || c.val = 0xA0 || c.val = 0x1680 ||
  (0x2000 ≤ c.val && c.val ≤ 0x200A) ||
  c.val = 0x2028 || c.val = 0x2029 || c.val = 0x202F || c.val = 0x205F ||
  c.val = 0x3000 || c.val = 0xFEFF

/-- `s.replace(/\s+/g, '_')` on the characters of `s`, scanning left to right: a `\s`
character that starts a run is replaced by one underscore, the further `\s` characters of
the same run (`inRun = true`) are dropped, every other character is kept. -/
def replaceSpaceRunsAux : Bool → List Char → List Char
  | _, [] => []
  | inRun, c :: cs =>
    if isJsSpace c then
      if inRun then replaceSpaceRunsAux true cs else '_' :: replaceSpaceRunsAux true cs
    else c :: replaceSpaceRunsAux false cs

/-- `s.replace(/\s+/g, '_')`: every maximal run of `\s` characters becomes one underscore. -/
def replaceSpaceRuns (cs : List Char) : List Char := replaceSpaceRunsAux false cs

/-- `appName.replace(/\s+/g, '_')`. -/
def sanitize (appName : String) : String := ⟨replaceSpaceRuns appName.data⟩

/-- The template literal of lines 183 and 199:
`${appName.replace(/\s+/g, '_')}-${projectId}.apk`. -/
def apkName (appName projectId : String) : String :=
  sanitize appName ++ "-" ++ projectId ++ ".apk"

/-- The `downloadUrl` of line 199. -/
def downloadUrl (appName projectId : String) : String :=
  "/" ++ apkName appName projectId

/-- The template literal written to `www/index.html` in the `url` branch (lines 69-88),
up to the `${appName}` placeholder. -/
def wrapperHead : String :=
  "\n" ++
  "                    <!DOCTYPE html>\n" ++
  "                    <html>\n" ++
  "                    <head>\n" ++
  "                        <meta http-equiv=\"Content-Security-Policy\" content=\"default-src 'self' data: gap: https://ssl.gstatic.com 'unsafe-eval'; style-src 'self' 'unsafe-inline'; media-src *; img-src 'self' data: content:;\">\n" ++
  "                        <meta name=\"format-detection\" content=\"telephone=no\">\n" ++
  "                        <meta name=\"msapplication-tap-highlight\" content=\"no\">\n" ++
  "                        <meta name=\"viewport\" content=\"initial-scale=1, width=device-width, viewport-fit=cover\">\n" ++
  "                        <title>"

/-- The wrapper template between the `${appName}` and `${url}` placeholders. -/
def wrapperMid : String :=
  "</title>\n" ++
  "                        <style>\n" ++
  "                            body \x7b margin: 0; padding: 0; overflow: hidden; \x7d\n" ++
  "                            iframe \x7b width: 100vw; height: 100vh; border: none; \x7d\n" ++
  "                        </style>\n" ++
  "                    </head>\n" ++
  "                    <body>\n" ++
  "                        <iframe src=\""

/-- The wrapper template after the `${url}` placeholder. -/
def wrapperTail : String :=
  "\"></iframe>\n" ++
  "                        <script src=\"cordova.js\"></script>\n" ++
  "                    </body>\n" ++
  "                    </html>\n" ++
  "                "

/-- The text written to `www/index.html` when `type === 'url' && url` (lines 69-88):
the template with `appName` and `url` interpolated as they are. -/
def wrapper (appName url : String) : String :=
  wrapperHead ++ appName ++ wrapperMid ++ url ++ wrapperTail

/-! ## The manifest rewrite of lines 135-138 -/

/-- Matches `\s+` at the start of the text and returns what follows the run. -/
def matchSpaces1 : List Char → Option (List Char)
  | [] => none
  | c :: cs => if isJsSpace c then some (cs.dropWhile isJsSpace) else none

/-- Matches a literal at the start of the text and returns what follows it. -/
def matchLit (lit s : List Char) : Option (List Char) :=
  if lit.isPrefixOf s then some (s.drop lit.length) else none

/-- Matches `[^"]+"` at the start of the text (a non-empty run of characters other than the
double quote, then a double quote) and returns what follows the quote. -/
def matchQuoted (s : List Char) : Option (List Char) :=
  match s.takeWhile (fun c => c != '"'), s.dropWhile (fun c => c != '"') with
  | _ :: _, '"' :: rest => some rest
  | _, _ => none

/-- Matches `\s*\/?>` at the start of the text and returns what follows the `>`. -/
def matchTagEnd (s : List Char) : Option (List Char) :=
  match s.dropWhile isJsSpace with
  | '/' :: '>' :: rest => some rest
  | '>' :: rest => some rest
  | _ => none

/-- A match of `/<icon\s+src="[^"]+"\s*\/?>/` at the start of the text; returns what
follows the match. -/
def matchIconSrc (s : List Char) : Option (List Char) :=
  (matchLit "<icon".data s).bind fun s1 =>
  (matchSpaces1 s1).bind fun s2 =>
  (matchLit "src=\"".data s2).bind fun s3 =>
  (matchQuoted s3).bind matchTagEnd

/-- A match of `/<icon\s+density="[^"]+"\s+src="[^"]+"\s*\/?>/` at the start of the text;
returns what follows the match. -/
def matchIconDensity (s : List Char) : Option (List Char) :=
  (matchLit "<icon".data s).bind fun s1 =>
  (matchSpaces1 s1).bind fun s2 =>
  (matchLit "density=\"".data s2).bind fun s3 =>
  (matchQuoted s3).bind fun s4 =>
  (matchSpaces1 s4).bind fun s5 =>
  (matchLit "src=\"".data s5).bind fun s6 =>
  (matchQuoted s6).bind matchTagEnd

/-- `text.replace(re, '')` for a global regular expression whose match at a position is
given by `m`: scanning left to right, a match is dropped and the scan resumes right after
it; a position without a match keeps its character. `skip` counts the characters of the
current match still to be dropped. -/
def removeAllAux (m : List Char → Option (List Char)) : Nat → List Char → List Char
  | _, [] => []
  | skip + 1, _ :: cs => removeAllAux m skip cs
  | 0, c :: cs =>
    match m (c :: cs) with
    | some rest => removeAllAux m ((c :: cs).length - rest.length - 1) cs
    | none => c :: removeAllAux m 0 cs

/-- `text.replace(re, '')` with the `g` flag. -/
def removeAll (m : List Char → Option (List Char)) (s : List Char) : List Char :=
  removeAllAux m 0 s

/-- `text.replace(pat, repl)` with a string pattern: only the first occurrence is replaced
(`repl` holds no `$`, so it is inserted as it is). -/
def replaceFirst (pat repl : List Char) : List Char → List Char
  | [] => []
  | c :: cs =>
    if pat.isPrefixOf (c :: cs) then repl ++ (c :: cs).drop pat.length
    else c :: replaceFirst pat repl cs

/-- The closing root element looked for on line 138. -/
def closeWidget : String := "</widget>"

/-- The replacement text of line 138, with `iconFileName = 'icon.png'`. -/
def newIconLine : String := "    <icon src=\"res/icon/android/icon.png\" />\n</widget>"

/-- Lines 135-136: the two removals. -/
def stripIcons (m : List Char) : List Char :=
  removeAll matchIconDensity (removeAll matchIconSrc m)

/-- Lines 135-138: the manifest text written back by the icon installer. -/
def rewriteManifest (m : String) : String :=
  ⟨replaceFirst closeWidget.data newIconLine.data (stripIcons m.data)⟩

/-! ## `path.join` -/

/-- A path as the list of its segments below the filesystem root. -/
abbrev Path := List String

/-- Splits a text at every `/`. -/
def splitSlash : List Char → List (List Char)
  | [] => [[]]
  | c :: cs =>
    match splitSlash cs with
    | [] => [[c]]
    | seg :: segs => if c = '/' then [] :: seg :: segs else (c :: seg) :: segs

/-- One step of `path.normalize` on an absolute path: empty and `.` segments are dropped,
`..` removes the last segment kept so far (nothing above the root), any other segment is
appended. -/
def pushSegment (acc : Path) (seg : String) : Path :=
  if seg = "" ∨ seg = "." then acc
  else if seg = ".." then acc.dropLast
  else acc ++ [seg]

/-- `path.join(base, ...parts)` for an absolute, normalised `base` given by its segments:
the parts are joined with `/` and the result is normalised. -/
def pathJoin (base : Path) (parts : List String) : Path :=
  (parts.flatMap fun part => (splitSlash part.data).map String.mk).foldl pushSegment base

/-! ## The filesystem

The part of the `fs` module the handler uses, over an explicit state. A call that Node
would end with an exception (`ENOENT`, `ENOTDIR`, `EISDIR`, `EEXIST`) returns `none`;
permission and device errors are outside the model. -/

/-- What a path holds: a regular file with its content, or a directory. -/
inductive Node where
  | file (content : String)
  | dir
  deriving DecidableEq, Repr

/-- The filesystem state: the entries below the root; the first entry of a path counts. -/
abbrev FS := List (Path × Node)

/-- The entry recorded for a path. -/
def lookup : FS → Path → Option Node
  | [], _ => none
  | (q, n) :: rest, p => if q = p then some n else lookup rest p

/-- The node at a path (`fs.lstatSync`); the root is a directory. -/
def stat (fs : FS) (p : Path) : Option Node :=
  if p = [] then some Node.dir else lookup fs p

/-- `fs.existsSync(p)`. -/
def existsSync (fs : FS) (p : Path) : Bool := (stat fs p).isSome

/-- `fs.lstatSync(p).isDirectory()` for an existing path, `false` for an absent one. -/
def isDirectory (fs : FS) (p : Path) : Bool := stat fs p == some Node.dir

/-- `fs.rmSync(p, { recursive: true, force: true })`: the path and everything below it
is removed; an absent path is not an error. -/
def rmSync (fs : FS) (p : Path) : FS := fs.filter fun e => !p.isPrefixOf e.1

/-- `fs.unlinkSync(p)`: removes a regular file; throws on an absent path or a directory. -/
def unlinkSync (fs : FS) (p : Path) : Option FS :=
  match stat fs p with
  | some (Node.file _) => some (fs.filter fun e => e.1 ≠ p)
  | _ => none

/-- `fs.writeFileSync(p, content)`: creates or replaces a regular file; throws when the
parent is not a directory or the path is a directory. -/
def writeFileSync (fs : FS) (p : Path) (content : String) : Option FS :=
  if isDirectory fs p.dropLast && !isDirectory fs p then
    some ((p, Node.file content) :: fs.filter fun e => e.1 ≠ p)
  else none

/-- `fs.readFileSync(p, 'utf-8')`: throws unless the path is a regular file. -/
def readFileSync (fs : FS) (p : Path) : Option String :=
  match stat fs p with
  | some (Node.file content) => some content
  | _ => none

/-- `fs.copyFileSync(src, dst)`: throws unless `src` is a regular file and `dst` can be
written. -/
def copyFileSync (fs : FS) (src dst : Path) : Option FS :=
  (readFileSync fs src).bind fun content => writeFileSync fs dst content

/-- `fs.mkdirSync(p, { recursive: true })` along the given prefixes of `p`, shortest
first: a missing prefix is created, an existing directory is kept, a regular file in the
way throws. -/
def mkdirPrefixes (fs : FS) : List Path → Option FS
  | [] => some fs
  | q :: qs =>
    match stat fs q with
    | some Node.dir => mkdirPrefixes fs qs
    | some (Node.file _) => none
    | none => mkdirPrefixes ((q, Node.dir) :: fs) qs

/-- `fs.mkdirSync(p, { recursive: true })`. -/
def mkdirSyncRecursive (fs : FS) (p : Path) : Option FS := mkdirPrefixes fs p.inits

/-- The name of `q` when `q` lies directly inside the directory `p`. -/
def childName (p q : Path) : Option String :=
  if q ≠ [] ∧ q.dropLast = p then q.getLast? else none

/-- `fs.readdirSync(p)`: the names directly inside a directory; throws unless `p` is a
directory. -/
def readdirSync (fs : FS) (p : Path) : Option (List String) :=
  if isDirectory fs p then some (fs.filterMap fun e => childName p e.1).dedup else none

/-- The guarded removal `if (file && fs.existsSync(file.path)) fs.unlinkSync(file.path)`. -/
def unlinkIfExists (fs : FS) : Option Path → Option FS
  | none => some fs
  | some p => if existsSync fs p then unlinkSync fs p else some fs

/-- The guarded removal
`if (fs.existsSync(p)) fs.rmSync(p, { recursive: true, force: true })`. -/
def rmIfExists (fs : FS) (p : Path) : FS :=
  if existsSync fs p then rmSync fs p else fs

/-- Lines 192-197: the callback handed to `setTimeout`, the guarded removal of the
workspace. -/
def cleanupTimer (projectPath : Path) (fs : FS) : FS := rmIfExists fs projectPath

/-- The body of the `forEach` of lines 54-61 for one directory entry: a directory is
removed with everything below it, anything else is unlinked. -/
def removeEntry (wwwPath : Path) (fs : FS) (file : String) : Option FS :=
  match stat fs (pathJoin wwwPath [file]) with
  | none => none
  | some Node.dir => some (rmSync fs (pathJoin wwwPath [file]))
  | some (Node.file _) => unlinkSync fs (pathJoin wwwPath [file])

/-- The `forEach` of lines 54-61 over the names read from the content root. -/
def removeEntries (wwwPath : Path) : FS → List String → Option FS
  | fs, [] => some fs
  | fs, file :: files => (removeEntry wwwPath fs file).bind fun fs1 => removeEntries wwwPath fs1 files

/-- Lines 54-61: the wipe of the content root. -/
def cleanWww (fs : FS) (wwwPath : Path) : Option FS :=
  (readdirSync fs wwwPath).bind fun files => removeEntries wwwPath fs files

/-! ## The handler of `POST /generate-apk` -/

/-- The fields of `req.body` and `req.files` the handler reads. An uploaded file is
given by its `path`. The field `appName` is taken to be present: a request without it
throws at line 183 and is not covered. -/
structure Request where
  type : Option String
  appName : String
  htmlCode : Option String
  url : Option String
  zipFile : Option Path
  iconFile : Option Path

/-- What an `exec` callback receives and what the tool did to the filesystem meanwhile. -/
structure ExecOutcome where
  error : Bool
  stderr : String
  effect : FS → FS

/-- What `new AdmZip(zipFile.path)` followed by `zip.extractAllTo(wwwPath, true)` did:
whether it threw, and what it wrote before returning or throwing. -/
structure ZipOutcome where
  throws : Bool
  effect : FS → FS

/-- The response: the status code and the JSON body. -/
structure Response where
  status : Nat
  success : Bool
  message : Option String
  error : Option String
  downloadUrl : Option String
  deriving DecidableEq, Repr

/-- The steps of a run that are recorded: tool invocations, writes of content and the
export of the artifact. -/
inductive Event where
  | execCreate
  | execPlatformAdd
  | execBuild
  | wroteIndex
  | extractedZip
  | installedIcon
  | exported (dst : Path)
  deriving DecidableEq, Repr

/-- How a run ends: with a response, in the filesystem state of that moment and with or
without the deferred cleanup of lines 192-197 scheduled; or with an exception thrown
inside an `exec` callback, which no `try` encloses, so that no response is sent. -/
inductive Run where
  | responded (resp : Response) (fs : FS) (events : List Event) (cleanupScheduled : Bool)
  | threw (events : List Event)

/-- The response of a run, if one was sent. -/
def Run.response : Run → Option Response
  | Run.responded resp _ _ _ => some resp
  | Run.threw _ => none

/-- The filesystem state at the moment of the response. -/
def Run.fsAtResponse : Run → Option FS
  | Run.responded _ fs _ _ => some fs
  | Run.threw _ => none

/-- The recorded steps of a run. -/
def Run.events : Run → List Event
  | Run.responded _ _ events _ => events
  | Run.threw events => events

/-- The filesystem state once every callback the run has scheduled has run: the state at
the response, followed by the timer callback of lines 192-197 when the timer was set. -/
def Run.fsAfterTimer (projectPath : Path) : Run → Option FS
  | Run.responded _ fs _ true => some (cleanupTimer projectPath fs)
  | Run.responded _ fs _ false => some fs
  | Run.threw _ => none

/-- JavaScript truthiness of an optional string field: present and not empty. -/
def truthy : Option String → Bool
  | some v => v != ""
  | none => false

/-- A body `{ success: false, message, error }` (the `error` key only where the source
has it). -/
def failureResponse (status : Nat) (message : String) (error : Option String) : Response :=
  { status := status, success := false, message := some message, error := error,
    downloadUrl := none }

/-- The body of the success response (line 199), sent with the default status. -/
def successResponse (appName projectId : String) : Response :=
  { status := 200, success := true, message := none, error := none,
    downloadUrl := some (downloadUrl appName projectId) }

/-- The outcome of lines 50-118: either the content is installed and the pipeline goes
on, or the run has ended there. -/
inductive Staged where
  | ready (fs : FS) (events : List Event)
  | done (run : Run)

/-- The state the content stage hands on, when the pipeline goes on. -/
def Staged.state : Staged → Option FS
  | Staged.ready fs _ => some fs
  | Staged.done _ => none

/-- The steps recorded by the content stage, when the pipeline goes on. -/
def Staged.events : Staged → List Event
  | Staged.ready _ events => events
  | Staged.done _ => []

/-- Lines 50-118: the wipe of the content root and the installation of the content. -/
def installContent (zip : ZipOutcome) (req : Request) (projectPath : Path) (fs1 : FS) :
    Staged :=
  let wwwPath := pathJoin projectPath ["www"]
  match cleanWww fs1 wwwPath with
  | none => Staged.done (Run.threw [Event.execCreate])
  | some fs2 =>
    if req.type = some "html_code" ∧ truthy req.htmlCode = true then
      match writeFileSync fs2 (pathJoin wwwPath ["index.html"]) (req.htmlCode.getD "") with
      | none => Staged.done (Run.threw [Event.execCreate])
      | some fs3 => Staged.ready fs3 [Event.execCreate, Event.wroteIndex]
    else if req.type = some "url" ∧ truthy req.url = true then
      match writeFileSync fs2 (pathJoin wwwPath ["index.html"])
          (wrapper req.appName (req.url.getD "")) with
      | none => Staged.done (Run.threw [Event.execCreate])
      | some fs3 => Staged.ready fs3 [Event.execCreate, Event.wroteIndex]
    else if req.type = some "file" ∧ req.zipFile.isSome = true then
      if zip.throws then
        match unlinkIfExists (zip.effect fs2) req.zipFile with
        | none => Staged.done (Run.threw [Event.execCreate, Event.extractedZip])
        | some fs3 =>
          Staged.done (Run.responded (failureResponse 500 "Failed to extract zip file." none)
            (rmIfExists fs3 projectPath) [Event.execCreate, Event.extractedZip] false)
      else Staged.ready (zip.effect fs2) [Event.execCreate, Event.extractedZip]
    else
      match (unlinkIfExists fs2 req.zipFile).bind fun fs3 => unlinkIfExists fs3 req.iconFile with
      | none => Staged.done (Run.threw [Event.execCreate])
      | some fs4 =>
        Staged.done (Run.responded (failureResponse 400 "Invalid input type or missing data." none)
          (rmIfExists fs4 projectPath) [Event.execCreate] false)

/-- Lines 121-141: the icon installer. -/
def installIcon (req : Request) (projectPath : Path) (fs : FS) : Option FS :=
  match req.iconFile with
  | none => some fs
  | some iconPath =>
    let resourcesPath := pathJoin projectPath ["res"]
    let destinationIconPath := pathJoin resourcesPath ["icon", "android", "icon.png"]
    let iconDir := destinationIconPath.dropLast
    (if !existsSync fs iconDir then mkdirSyncRecursive fs iconDir else some fs).bind fun fsA =>
    (copyFileSync fsA iconPath destinationIconPath).bind fun fsB =>
    let configXmlPath := pathJoin projectPath ["config.xml"]
    if existsSync fsB configXmlPath then
      (readFileSync fsB configXmlPath).bind fun configXmlContent =>
      writeFileSync fsB configXmlPath (rewriteManifest configXmlContent)
    else some fsB

/-- Where the build tool leaves the artifact (line 182). -/
def apkPathOf (projectPath : Path) : Path :=
  pathJoin projectPath
    ["platforms", "android", "app", "build", "outputs", "apk", "release",
     "app-release-unsigned.apk"]

/-- Where the artifact is exported to (line 183). -/
def finalApkPathOf (dirname : Path) (appName projectId : String) : Path :=
  pathJoin dirname ["public", apkName appName projectId]

/-- The workspace directory (line 39). -/
def projectPathOf (dirname : Path) (projectId : String) : Path :=
  pathJoin dirname ["cordova_projects", projectId]

/-- Lines 163-208: the callback of `cordova build android --release`, entered in the
state `fs6` the build tool left. -/
def buildCallback (dirname : Path) (projectId : String) (build : ExecOutcome)
    (req : Request) (fs6 : FS) (events : List Event) : Run :=
  let projectPath := projectPathOf dirname projectId
  match (unlinkIfExists fs6 req.zipFile).bind fun fs => unlinkIfExists fs req.iconFile with
  | none => Run.threw events
  | some fs7 =>
    if build.error then
      Run.responded (failureResponse 500 "Failed to build Android app." (some build.stderr))
        (rmIfExists fs7 projectPath) events false
    else
      let apkPath := apkPathOf projectPath
      let finalApkPath := finalApkPathOf dirname req.appName projectId
      if existsSync fs7 apkPath then
        match copyFileSync fs7 apkPath finalApkPath with
        | none => Run.threw events
        | some fs8 =>
          Run.responded (successResponse req.appName projectId)
            fs8 (events ++ [Event.exported finalApkPath]) true
      else
        Run.responded (failureResponse 500 "APK build failed or APK file not found." none)
          (rmIfExists fs7 projectPath) events false

/-- Lines 144-209: the callback of `cordova platform add android --save`, entered in the
state `fs5` the tool left. -/
def platformCallback (dirname : Path) (projectId : String) (platformAdd build : ExecOutcome)
    (req : Request) (fs5 : FS) (events : List Event) : Run :=
  let projectPath := projectPathOf dirname projectId
  if platformAdd.error then
    match (unlinkIfExists fs5 req.zipFile).bind fun fs => unlinkIfExists fs req.iconFile with
    | none => Run.threw events
    | some fs6 =>
      Run.responded (failureResponse 500 "Failed to add Android platform." (some platformAdd.stderr))
        (rmIfExists fs6 projectPath) events false
  else
    buildCallback dirname projectId build req (build.effect fs5) (events ++ [Event.execBuild])

/-- The steps recorded when the platform tool is started: those of the content stage,
the icon installation when an icon was uploaded, and the invocation itself. -/
def eventsAtPlatformAdd (req : Request) (events : List Event) : List Event :=
  (events ++ if req.iconFile.isSome then [Event.installedIcon] else []) ++
    [Event.execPlatformAdd]

/-- Lines 32-210: one run of the handler. `dirname` is `__dirname`, `projectId` the value
of `uuidv4()`, and `create`, `platformAdd`, `build` and `zip` are the outcomes of the three
tool invocations and of the archive extraction. The `catch` of lines 212-226 encloses only
the call of `exec`: it is entered when that call itself throws (a command that `exec`
refuses, such as one with a NUL character), which is not covered here, and never for an
exception thrown inside a callback. -/
def generateApk (dirname : Path) (projectId : String)
    (create platformAdd build : ExecOutcome) (zip : ZipOutcome)
    (req : Request) (fs0 : FS) : Run :=
  let projectPath := projectPathOf dirname projectId
  if create.error then
    Run.responded (failureResponse 500 "Failed to create Cordova project." (some create.stderr))
      (create.effect fs0) [Event.execCreate] false
  else
    match installContent zip req projectPath (create.effect fs0) with
    | Staged.done run => run
    | Staged.ready fs3 events =>
      match installIcon req projectPath fs3 with
      | none => Run.threw events
      | some fs4 =>
        platformCallback dirname projectId platformAdd build req (platformAdd.effect fs4)
          (eventsAtPlatformAdd req events)

/-! ## Predicates used in the statements -/

/-- A path segment that `path.join` keeps as it is: no slash, and not empty, `.` or `..`
(the names a directory entry can have, and the shape of a UUID). -/
def ProperSegment (seg : String) : Prop :=
  '/' ∉ seg.data ∧ seg ≠ "" ∧ seg ≠ "." ∧ seg ≠ ".."

instance (seg : String) : Decidable (ProperSegment seg) := by
  unfold ProperSegment; infer_instance

/-- Every segment of every recorded path is a name a directory entry can have. -/
def ProperTree (fs : FS) : Prop := ∀ e ∈ fs, ∀ seg ∈ e.1, ProperSegment seg

instance (fs : FS) : Decidable (ProperTree fs) := by
  unfold ProperTree; infer_instance

/-- The state `fs1` arises from `fs` by removals only: every path is either absent in
`fs1` or holds what it held in `fs`. -/
def Shrinks (fs fs1 : FS) : Prop := ∀ q, stat fs1 q = none ∨ stat fs1 q = stat fs q

/-- The uploaded files of the request are not directories in the state `fs`, so that the
guarded `unlinkSync` of the cleanup code does not throw. -/
def UploadsRemovable (req : Request) (fs : FS) : Prop :=
  (∀ p ∈ req.zipFile, isDirectory fs p = false) ∧
  (∀ p ∈ req.iconFile, isDirectory fs p = false)

instance (req : Request) (fs : FS) : Decidable (UploadsRemovable req fs) := by
  unfold UploadsRemovable; infer_instance

/-- The request selects none of the three input variants (lines 64, 66, 89). -/
def InvalidInput (req : Request) : Prop :=
  ¬ (req.type = some "html_code" ∧ truthy req.htmlCode = true) ∧
  ¬ (req.type = some "url" ∧ truthy req.url = true) ∧
  ¬ (req.type = some "file" ∧ req.zipFile.isSome = true)

instance (req : Request) : Decidable (InvalidInput req) := by
  unfold InvalidInput; infer_instance

/-- The request selects the archive variant (line 89 is reached and holds) and the
extraction throws. -/
def ExtractionFails (zip : ZipOutcome) (req : Request) : Prop :=
  ¬ (req.type = some "html_code" ∧ truthy req.htmlCode = true) ∧
  ¬ (req.type = some "url" ∧ truthy req.url = true) ∧
  (req.type = some "file" ∧ req.zipFile.isSome = true) ∧ zip.throws = true

instance (zip : ZipOutcome) (req : Request) : Decidable (ExtractionFails zip req) := by
  unfold ExtractionFails; infer_instance

/-- No recorded step is an export of the artifact. -/
def NoExport (events : List Event) : Prop := ∀ dst, Event.exported dst ∉ events

/-- The state in which the artifact check of line 185 runs when the run gets there: the
content and the icon are installed, both tools have run and the uploads are removed. -/
def stateAtArtifactCheck (dirname : Path) (projectId : String)
    (create platformAdd build : ExecOutcome) (zip : ZipOutcome)
    (req : Request) (fs0 : FS) : Option FS :=
  match installContent zip req (projectPathOf dirname projectId) (create.effect fs0) with
  | Staged.ready fs3 _ =>
    (installIcon req (projectPathOf dirname projectId) fs3).bind fun fs4 =>
    (unlinkIfExists (build.effect (platformAdd.effect fs4)) req.zipFile).bind fun fs =>
    unlinkIfExists fs req.iconFile
  | Staged.done _ => none

/-- The six conditions under which a run is expected to succeed: the three tools exit
successfully, the request selects an input variant, the extraction does not fail, and the
artifact exists when line 185 checks for it. -/
def SuccessConditions (dirname : Path) (projectId : String)
    (create platformAdd build : ExecOutcome) (zip : ZipOutcome)
    (req : Request) (fs0 : FS) : Prop :=
  create.error = false ∧ ¬ InvalidInput req ∧ ¬ ExtractionFails zip req ∧
  platformAdd.error = false ∧ build.error = false ∧
  ∃ fs7, stateAtArtifactCheck dirname projectId create platformAdd build zip req fs0 = some fs7 ∧
    existsSync fs7 (apkPathOf (projectPathOf dirname projectId)) = true

/-- The number of positions of a text at which the pattern starts. -/
def countOcc (pat : List Char) : List Char → Nat
  | [] => 0
  | c :: cs => (if pat.isPrefixOf (c :: cs) then 1 else 0) + countOcc pat cs

/-- The text between the first occurrence of `marker` and the next double quote: the
value of the attribute that `marker` opens, as it is written in the document. -/
def valueAfter (marker : List Char) : List Char → Option (List Char)
  | [] => none
  | c :: cs =>
    if marker.isPrefixOf (c :: cs) then
      some (((c :: cs).drop marker.length).takeWhile fun x => x != '"')
    else valueAfter marker cs

/-- The opening of an embedded-frame element. -/
def iframeOpen : String := "<iframe"

/-- The opening of an embedded-frame element up to the value of its `src` attribute. -/
def iframeSrcOpen : String := "<iframe src=\""

/-- The text with its ASCII capitals lowered: tag names are read without regard to case. -/
def lowerAscii (s : List Char) : List Char := s.map Char.toLower

/-- The number of openings of a frame element in a document text, the tag name written
in any mix of cases. -/
def frameOpenings (s : List Char) : Nat := countOcc iframeOpen.data (lowerAscii s)

/-- The opening of an icon declaration element. -/
def iconOpen : String := "<icon"

/-- No occurrence of `pat` in `s ++ t` starts inside `s`. -/
def NoStart (pat s t : List Char) : Prop :=
  ∀ s1 s2, s = s1 ++ s2 → s2 ≠ [] → ¬ pat <+: s2 ++ t

/-- The part of `wrapperMid` before the opening of the frame element. -/
def wrapperMidLead : String :=
  "</title>\n" ++
  "                        <style>\n" ++
  "                            body \x7b margin: 0; padding: 0; overflow: hidden; \x7d\n" ++
  "                            iframe \x7b width: 100vw; height: 100vh; border: none; \x7d\n" ++
  "                        </style>\n" ++
  "                    </head>\n" ++
  "                    <body>\n" ++
  "                        "

/-- The opening of an icon declaration element up to the value of its `src` attribute. -/
def iconSrcOpen : String := "<icon src=\""

/-- The path of the installed icon relative to the project (lines 123 and 138). -/
def installedIconPath : String := "res/icon/android/icon.png"

/-! ## Sample inputs -/

/-- A sample `__dirname`. -/
def sampleDirname : Path := ["srv"]

/-- A sample value of `uuidv4()`. -/
def sampleId : String := "7c9e"

/-- The workspace of the sample run. -/
def sampleProject : Path := ["srv", "cordova_projects", "7c9e"]

/-- A sample upload of an archive. -/
def sampleZip : Path := ["uploads", "z.zip"]

/-- A sample upload of an icon. -/
def sampleIcon : Path := ["uploads", "i.png"]

/-- A filesystem with the public directory and two uploaded files. -/
def sampleFs : FS :=
  [(["srv"], Node.dir), (["srv", "public"], Node.dir), (["uploads"], Node.dir),
   (sampleZip, Node.file "PK"), (sampleIcon, Node.file "PNG")]

/-- A successful `cordova create`: the project with its default content root and manifest. -/
def scaffoldOk : ExecOutcome :=
  { error := false, stderr := "",
    effect := fun fs =>
      (sampleProject ++ ["config.xml"], Node.file "<widget></widget>") ::
      (sampleProject ++ ["www", "js", "index.js"], Node.file "// app") ::
      (sampleProject ++ ["www", "js"], Node.dir) ::
      (sampleProject ++ ["www", "index.html"], Node.file "<html></html>") ::
      (sampleProject ++ ["www"], Node.dir) ::
      (sampleProject, Node.dir) ::
      (["srv", "cordova_projects"], Node.dir) :: fs }

/-- A successful `cordova create` whose manifest declares an icon. -/
def scaffoldWithIcon : ExecOutcome :=
  { error := false, stderr := "",
    effect := fun fs =>
      (sampleProject ++ ["config.xml"],
        Node.file "<widget><icon src=\"res/android/ldpi.png\" density=\"ldpi\" /></widget>") ::
      (sampleProject ++ ["www"], Node.dir) ::
      (sampleProject, Node.dir) ::
      (["srv", "cordova_projects"], Node.dir) :: fs }

/-- A failing `cordova create` that leaves the filesystem as it was. -/
def scaffoldFails : ExecOutcome :=
  { error := true, stderr := "create failed", effect := fun fs => fs }

/-- A successful `cordova platform add`. -/
def platformOk : ExecOutcome :=
  { error := false, stderr := "",
    effect := fun fs => (sampleProject ++ ["platforms"], Node.dir) :: fs }

/-- A failing `cordova platform add`. -/
def platformFails : ExecOutcome :=
  { error := true, stderr := "no sdk", effect := fun fs => fs }

/-- A successful `cordova build` that leaves the artifact. -/
def buildOk : ExecOutcome :=
  { error := false, stderr := "",
    effect := fun fs => (apkPathOf sampleProject, Node.file "APK") :: fs }

/-- A failing `cordova build`. -/
def buildFails : ExecOutcome :=
  { error := true, stderr := "gradle failed", effect := fun fs => fs }

/-- A `cordova build` that reports success without leaving the artifact. -/
def buildNoArtifact : ExecOutcome :=
  { error := false, stderr := "", effect := fun fs => fs }

/-- An extraction that succeeds and writes one document. -/
def zipOk : ZipOutcome :=
  { throws := false,
    effect := fun fs => (sampleProject ++ ["www", "index.html"], Node.file "<p>zip</p>") :: fs }

/-- An extraction that throws at once. -/
def zipThrows : ZipOutcome := { throws := true, effect := fun fs => fs }

/-- Inline markup, with an archive and an icon uploaded as well. -/
def sampleRequest : Request :=
  { type := some "html_code", appName := "My App", htmlCode := some "<h1>hi</h1>",
    url := none, zipFile := some sampleZip, iconFile := some sampleIcon }

/-- Inline markup without uploads. -/
def markupRequest : Request :=
  { type := some "html_code", appName := "My App", htmlCode := some "<h1>hi</h1>",
    url := none, zipFile := none, iconFile := none }

/-- An archive request with an icon. -/
def archiveRequest : Request :=
  { type := some "file", appName := "My App", htmlCode := none,
    url := none, zipFile := some sampleZip, iconFile := some sampleIcon }

/-- A request with an unsupported `type`. -/
def unsupportedRequest : Request :=
  { type := some "pdf", appName := "My App", htmlCode := none,
    url := none, zipFile := some sampleZip, iconFile := some sampleIcon }

/-- Inline markup with a parent-directory segment in the display name. -/
def traversalRequest : Request :=
  { type := some "html_code", appName := "../x", htmlCode := some "<h1>hi</h1>",
    url := none, zipFile := none, iconFile := none }

/-- Inline markup with a slash in the display name. -/
def slashRequest : Request :=
  { type := some "html_code", appName := "a/b", htmlCode := some "<h1>hi</h1>",
    url := none, zipFile := none, iconFile := none }

/-- Inline markup that is the empty string. -/
def emptyMarkupRequest : Request :=
  { type := some "html_code", appName := "My App", htmlCode := some "",
    url := none, zipFile := none, iconFile := none }

/-- A manifest whose icon declaration has `src` before `density`, the order of the
Cordova documentation. -/
def manifestWithIcon : String :=
  "<widget><icon src=\"res/android/ldpi.png\" density=\"ldpi\" /></widget>"

/-- A manifest whose icon declaration matches the first of the two patterns. -/
def manifestPlainIcon : String := "<widget><icon src=\"a.png\" /></widget>"

/-- A URL that holds a double quote. -/
def quotedUrl : String := "x\"></iframe><iframe src=\"y"

/-! ## Lemmas on `path.join` and on the filesystem -/

theorem splitSlash_of_no_slash (cs : List Char) (h : '/' ∉ cs) : splitSlash cs = [cs] := by
  induction cs with
  | nil => rfl
  | cons c cs ih =>
    have hc : c ≠ '/' := fun e => h (by simp [e])
    have hcs : '/' ∉ cs := fun e => h (by simp [e])
    simp [splitSlash, ih hcs, hc]

theorem pathJoin_nil (base : Path) : pathJoin base [] = base := rfl

theorem pathJoin_cons_proper (base : Path) (seg : String) (rest : List String)
    (h : ProperSegment seg) : pathJoin base (seg :: rest) = pathJoin (base ++ [seg]) rest := by
  obtain ⟨h0, h1, h2, h3⟩ := h
  have hs := splitSlash_of_no_slash _ h0
  have hm : String.mk seg.data = seg := rfl
  simp only [pathJoin, List.flatMap_cons, hs, List.map_cons, List.map_nil, hm,
    List.singleton_append, List.foldl_cons]
  simp [pushSegment, h1, h2, h3]

theorem replaceSpaceRunsAux_no_slash (cs : List Char) (h : '/' ∉ cs) (b : Bool) :
    '/' ∉ replaceSpaceRunsAux b cs := by
  induction cs generalizing b with
  | nil => simp [replaceSpaceRunsAux]
  | cons c cs ih =>
    have hc : '/' ≠ c := fun e => h (by simp [← e])
    have hcs : '/' ∉ cs := fun e => h (by simp [e])
    unfold replaceSpaceRunsAux
    split
    · split
      · exact ih hcs true
      · simp [ih hcs true]
    · simp [ih hcs false, hc]

theorem apkName_proper (a i : String) (ha : '/' ∉ a.data) (hi : '/' ∉ i.data) :
    ProperSegment (apkName a i) := by
  have hl : 5 ≤ (apkName a i).data.length := by
    simp [apkName, sanitize, String.data_append]
    omega
  refine ⟨?_, ?_, ?_, ?_⟩
  · have := replaceSpaceRunsAux_no_slash a.data ha false
    simp [apkName, sanitize, String.data_append, replaceSpaceRuns, this, hi]
  all_goals
    intro e
    rw [e] at hl
    revert hl
    decide

theorem finalApkPathOf_eq (dirname : Path) (a i : String) (ha : '/' ∉ a.data) (hi : '/' ∉ i.data) :
    finalApkPathOf dirname a i = dirname ++ ["public", apkName a i] := by
  unfold finalApkPathOf
  rw [pathJoin_cons_proper _ _ _ (by decide), pathJoin_cons_proper _ _ _ (apkName_proper a i ha hi)]
  simp [pathJoin_nil]

theorem lookup_filter (f : Path → Bool) (fs : FS) (p : Path) :
    lookup (fs.filter fun e => f e.1) p = if f p then lookup fs p else none := by
  induction fs with
  | nil => simp [lookup]
  | cons e rest ih =>
    obtain ⟨q, n⟩ := e
    by_cases hq : f q
    · by_cases hqp : q = p
      · subst hqp; simp [List.filter_cons, hq, lookup]
      · simp [List.filter_cons, hq, lookup, hqp, ih]
    · by_cases hqp : q = p
      · subst hqp; simp [List.filter_cons, hq, lookup, ih]
      · simp [List.filter_cons, hq, lookup, hqp, ih]

theorem stat_rmSync (fs : FS) (p q : Path) :
    stat (rmSync fs p) q = if q = [] then some Node.dir else if p.isPrefixOf q then none else stat fs q := by
  unfold stat rmSync
  by_cases hq : q = []
  · simp [hq]
  · rw [lookup_filter (fun x => !p.isPrefixOf x)]
    by_cases hp : p.isPrefixOf q <;> simp [hq, hp]

theorem stat_unlinkSync {fs fs1 : FS} {p : Path} (h : unlinkSync fs p = some fs1) (q : Path) :
    stat fs1 q = if q = p then none else stat fs q := by
  unfold unlinkSync at h
  split at h
  · next c hc =>
    have hp : p ≠ [] := by
      intro e; subst e; simp [stat] at hc
    simp only [Option.some.injEq] at h
    subst h
    unfold stat
    rw [lookup_filter (fun x => decide (x ≠ p))]
    by_cases hq : q = p
    · subst hq; simp [hp]
    · simp [hq]
  · simp at h

theorem Shrinks.refl (fs : FS) : Shrinks fs fs := fun _ => Or.inr rfl

theorem Shrinks.trans {a b c : FS} (h1 : Shrinks a b) (h2 : Shrinks b c) : Shrinks a c := by
  intro q
  rcases h2 q with h | h
  · exact Or.inl h
  · rcases h1 q with h3 | h3
    · exact Or.inl (h.trans h3)
    · exact Or.inr (h.trans h3)

theorem Shrinks.absent {a b : FS} (h : Shrinks a b) {q : Path} (hq : existsSync a q = false) :
    existsSync b q = false := by
  unfold existsSync at *
  rcases h q with h1 | h1
  · simp [h1]
  · rw [h1]; exact hq

theorem shrinks_rmSync (fs : FS) (p : Path) : Shrinks fs (rmSync fs p) := by
  intro q
  rw [stat_rmSync]
  by_cases hq : q = []
  · right; simp [hq, stat]
  · by_cases hp : p.isPrefixOf q <;> simp [hq, hp]

theorem shrinks_rmIfExists (fs : FS) (p : Path) : Shrinks fs (rmIfExists fs p) := by
  unfold rmIfExists
  split
  · exact shrinks_rmSync fs p
  · exact Shrinks.refl fs

theorem shrinks_unlinkSync {fs fs1 : FS} {p : Path} (h : unlinkSync fs p = some fs1) :
    Shrinks fs fs1 := by
  intro q
  rw [stat_unlinkSync h]
  by_cases hq : q = p <;> simp [hq]

theorem shrinks_unlinkIfExists {fs fs1 : FS} {o : Option Path} (h : unlinkIfExists fs o = some fs1) :
    Shrinks fs fs1 := by
  cases o with
  | none => simp [unlinkIfExists] at h; subst h; exact Shrinks.refl fs
  | some p =>
    simp only [unlinkIfExists] at h
    split at h
    · exact shrinks_unlinkSync h
    · simp at h; subst h; exact Shrinks.refl fs

theorem absent_unlinkIfExists {fs fs1 : FS} {p : Path} (h : unlinkIfExists fs (some p) = some fs1) :
    existsSync fs1 p = false := by
  simp only [unlinkIfExists] at h
  split at h
  · simp [existsSync, stat_unlinkSync h]
  · next hne => simp at h; subst h; simpa using hne

theorem absent_rmIfExists (fs : FS) (p : Path) (hp : p ≠ []) :
    existsSync (rmIfExists fs p) p = false := by
  unfold rmIfExists
  split
  · simp [existsSync, stat_rmSync, hp]
  · next h => simpa using h

/-- The guarded upload removal goes through exactly when the path is not a directory. -/
theorem unlinkIfExists_isSome (fs : FS) (p : Path) (h : isDirectory fs p = false) :
    ∃ fs1, unlinkIfExists fs (some p) = some fs1 := by
  simp only [unlinkIfExists]
  split
  · next he =>
    unfold unlinkSync
    unfold existsSync at he
    unfold isDirectory at h
    cases hs : stat fs p with
    | none => simp [hs] at he
    | some n =>
      cases n with
      | file c => exact ⟨_, rfl⟩
      | dir => simp [hs] at h
  · exact ⟨fs, rfl⟩

theorem lookup_isSome_of_mem {fs : FS} {e : Path × Node} (h : e ∈ fs) :
    (lookup fs e.1).isSome = true := by
  induction fs with
  | nil => simp at h
  | cons x rest ih =>
    obtain ⟨q, n⟩ := x
    by_cases hq : q = e.1
    · simp [lookup, hq]
    · simp only [lookup, hq, if_false]
      rcases List.mem_cons.1 h with h1 | h1
      · exact absurd (by rw [h1]) hq
      · exact ih h1

theorem mem_of_lookup {fs : FS} {p : Path} {n : Node} (h : lookup fs p = some n) :
    (p, n) ∈ fs := by
  induction fs with
  | nil => simp [lookup] at h
  | cons x rest ih =>
    obtain ⟨q, m⟩ := x
    by_cases hq : q = p
    · simp [lookup, hq] at h; simp [hq, h]
    · simp only [lookup, hq, if_false] at h
      exact List.mem_cons_of_mem _ (ih h)

theorem childName_eq_some {p q : Path} {name : String} (h : childName p q = some name) :
    q = p ++ [name] := by
  unfold childName at h
  split at h
  · next hc =>
    obtain ⟨hne, hd⟩ := hc
    have := List.dropLast_append_getLast? name h
    rw [hd] at this
    exact this.symm
  · simp at h

theorem childName_append (p : Path) (name : String) : childName p (p ++ [name]) = some name := by
  simp [childName]

theorem mem_readdirSync {fs : FS} {p : Path} {names : List String} (h : readdirSync fs p = some names)
    (name : String) : name ∈ names ↔ (lookup fs (p ++ [name])).isSome = true := by
  unfold readdirSync at h
  split at h
  · simp only [Option.some.injEq] at h
    subst h
    rw [List.mem_dedup, List.mem_filterMap]
    constructor
    · rintro ⟨e, he, hc⟩
      rw [← childName_eq_some hc]
      exact lookup_isSome_of_mem he
    · intro hl
      obtain ⟨n, hn⟩ := Option.isSome_iff_exists.1 hl
      exact ⟨_, mem_of_lookup hn, childName_append p name⟩
  · simp at h

theorem stat_append (fs : FS) (p : Path) (name : String) : stat fs (p ++ [name]) = lookup fs (p ++ [name]) := by
  simp [stat]

theorem removeEntries_spec (www : Path) (names : List String) :
    ∀ fs : FS, names.Nodup → (∀ name ∈ names, ProperSegment name ∧ (lookup fs (www ++ [name])).isSome = true) →
      ∃ fs1, removeEntries www fs names = some fs1 ∧ Shrinks fs fs1 ∧
        (∀ name ∈ names, stat fs1 (www ++ [name]) = none) ∧
        (∀ q, (∀ name ∈ names, ¬ (www ++ [name]) <+: q) → stat fs1 q = stat fs q) := by
  induction names with
  | nil => intro fs _ _; exact ⟨fs, rfl, Shrinks.refl fs, by simp, by simp⟩
  | cons name rest ih =>
    intro fs hnd hall
    obtain ⟨hpn, hln⟩ := hall name (List.mem_cons_self _ _)
    have hjoin : pathJoin www [name] = www ++ [name] := by
      rw [pathJoin_cons_proper _ _ _ hpn, pathJoin_nil]
    have hnd' := List.nodup_cons.1 hnd
    -- the first entry is removed
    have hstep : ∃ fsA, removeEntry www fs name = some fsA ∧ Shrinks fs fsA ∧
        stat fsA (www ++ [name]) = none ∧
        (∀ q, ¬ (www ++ [name]) <+: q → stat fsA q = stat fs q) := by
      unfold removeEntry
      rw [hjoin, stat_append]
      obtain ⟨n, hn⟩ := Option.isSome_iff_exists.1 hln
      rw [hn]
      cases n with
      | dir =>
        refine ⟨_, rfl, shrinks_rmSync _ _, ?_, ?_⟩
        · simp [stat_rmSync]
        · intro q hq
          rw [stat_rmSync]
          have : (www ++ [name]).isPrefixOf q = false := by
            rw [Bool.eq_false_iff]
            exact fun h => hq (List.isPrefixOf_iff_prefix.1 h)
          simp [this]
          intro hq0; simp [hq0, stat]
      | file c =>
        have hu : unlinkSync fs (www ++ [name]) = some (fs.filter fun e => e.1 ≠ www ++ [name]) := by
          simp [unlinkSync, stat_append, hn]
        refine ⟨_, hu, shrinks_unlinkSync hu, ?_, ?_⟩
        · rw [stat_unlinkSync hu, if_pos rfl]
        · intro q hq
          have : q ≠ www ++ [name] := fun e => hq (e ▸ List.prefix_refl _)
          rw [stat_unlinkSync hu, if_neg this]
    obtain ⟨fsA, hA, hshr, hgone, hkeep⟩ := hstep
    have hall' : ∀ x ∈ rest, ProperSegment x ∧ (lookup fsA (www ++ [x])).isSome = true := by
      intro x hx
      refine ⟨(hall x (List.mem_cons_of_mem _ hx)).1, ?_⟩
      have hne : x ≠ name := fun e => hnd'.1 (e ▸ hx)
      have hk := hkeep (www ++ [x]) (by
        intro hp
        have := List.IsPrefix.eq_of_length hp (by simp)
        simp at this
        exact hne this.symm)
      rw [stat_append, stat_append] at hk
      rw [hk]
      exact (hall x (List.mem_cons_of_mem _ hx)).2
    obtain ⟨fs1, h1, hs1, hg1, hk1⟩ := ih fsA hnd'.2 hall'
    refine ⟨fs1, by simp [removeEntries, hA, h1], hshr.trans hs1, ?_, ?_⟩
    · intro x hx
      rcases List.mem_cons.1 hx with hx | hx
      · subst hx
        have := hs1 (www ++ [x])
        rcases this with h | h
        · exact h
        · rw [h]; exact hgone
      · exact hg1 x hx
    · intro q hq
      rw [hk1 q (fun x hx => hq x (List.mem_cons_of_mem _ hx))]
      exact hkeep q (hq name (List.mem_cons_self _ _))

theorem cleanWww_spec (fs : FS) (www : Path) (htree : ProperTree fs)
    (hdir : isDirectory fs www = true) :
    ∃ fs1, cleanWww fs www = some fs1 ∧ Shrinks fs fs1 ∧
      (∀ name, stat fs1 (www ++ [name]) = none) ∧
      (∀ q, ¬ www <+: q ∨ q = www → stat fs1 q = stat fs q) := by
  have hrd : readdirSync fs www = some (fs.filterMap fun e => childName www e.1).dedup := by
    simp [readdirSync, hdir]
  have hmem := mem_readdirSync hrd
  obtain ⟨fs1, h1, hs, hg, hk⟩ := removeEntries_spec www _ fs (List.nodup_dedup _) (by
    intro name hn
    have hl := (hmem name).1 hn
    refine ⟨?_, hl⟩
    obtain ⟨n, hn2⟩ := Option.isSome_iff_exists.1 hl
    exact htree _ (mem_of_lookup hn2) name (by simp))
  refine ⟨fs1, by simp [cleanWww, hrd, h1], hs, ?_, ?_⟩
  · intro name
    by_cases hn : name ∈ (fs.filterMap fun e => childName www e.1).dedup
    · exact hg name hn
    · have hl : lookup fs (www ++ [name]) = none := by
        have := mt (hmem name).2 hn
        simpa using this
      rcases hs (www ++ [name]) with h | h
      · exact h
      · rw [h, stat_append, hl]
  · intro q hq
    apply hk
    intro name _ hp
    rcases hq with hq | hq
    · exact hq ((List.prefix_append www [name]).trans hp)
    · subst hq
      have := hp.length_le
      simp at this

/-! ## The shape of a run -/

theorem projectPathOf_eq (d : Path) (i : String) (h : ProperSegment i) :
    projectPathOf d i = d ++ ["cordova_projects", i] := by
  unfold projectPathOf
  rw [pathJoin_cons_proper _ _ _ (by decide), pathJoin_cons_proper _ _ _ h]
  simp [pathJoin_nil]

theorem projectPathOf_ne_nil (d : Path) (i : String) (h : ProperSegment i) :
    projectPathOf d i ≠ [] := by
  rw [projectPathOf_eq d i h]; simp

/-- What a response of the build callback looks like. -/
theorem buildCallback_responded {d : Path} {i : String} {b : ExecOutcome} {req : Request}
    {fs6 fs : FS} {ev ev1 : List Event} {resp : Response} {s : Bool}
    (h : buildCallback d i b req fs6 ev = Run.responded resp fs ev1 s) :
    ∃ fs7, ((unlinkIfExists fs6 req.zipFile).bind fun x => unlinkIfExists x req.iconFile) = some fs7 ∧
      ((b.error = true ∧ resp = failureResponse 500 "Failed to build Android app." (some b.stderr) ∧
          fs = rmIfExists fs7 (projectPathOf d i) ∧ ev1 = ev ∧ s = false) ∨
       (b.error = false ∧ existsSync fs7 (apkPathOf (projectPathOf d i)) = false ∧
          resp = failureResponse 500 "APK build failed or APK file not found." none ∧
          fs = rmIfExists fs7 (projectPathOf d i) ∧ ev1 = ev ∧ s = false) ∨
       (b.error = false ∧ existsSync fs7 (apkPathOf (projectPathOf d i)) = true ∧
          copyFileSync fs7 (apkPathOf (projectPathOf d i)) (finalApkPathOf d req.appName i) = some fs ∧
          resp = successResponse req.appName i ∧
          ev1 = ev ++ [Event.exported (finalApkPathOf d req.appName i)] ∧ s = true)) := by
  unfold buildCallback at h
  split at h
  · simp at h
  · next fs7 h7 =>
    refine ⟨fs7, h7, ?_⟩
    by_cases hb : b.error = true
    · simp [hb] at h
      obtain ⟨h1, h2, h3, h4⟩ := h
      exact Or.inl ⟨hb, h1.symm, h2.symm, h3.symm, h4⟩
    · simp [hb] at h
      by_cases ha : existsSync fs7 (apkPathOf (projectPathOf d i)) = true
      · simp [ha] at h
        split at h
        · simp at h
        · next fs8 h8 =>
          simp at h
          obtain ⟨h1, h2, h3, h4⟩ := h
          exact Or.inr (Or.inr ⟨by simpa using hb, ha, by rw [h8, h2], h1.symm, h3.symm, h4⟩)
      · simp [ha] at h
        obtain ⟨h1, h2, h3, h4⟩ := h
        exact Or.inr (Or.inl ⟨by simpa using hb, by simpa using ha, h1.symm, h2.symm, h3.symm, h4⟩)

/-- What a response of the platform callback looks like. -/
theorem platformCallback_responded {d : Path} {i : String} {p b : ExecOutcome} {req : Request}
    {fs5 fs : FS} {ev ev1 : List Event} {resp : Response} {s : Bool}
    (h : platformCallback d i p b req fs5 ev = Run.responded resp fs ev1 s) :
    (p.error = true ∧ ∃ fs6,
        ((unlinkIfExists fs5 req.zipFile).bind fun x => unlinkIfExists x req.iconFile) = some fs6 ∧
        resp = failureResponse 500 "Failed to add Android platform." (some p.stderr) ∧
        fs = rmIfExists fs6 (projectPathOf d i) ∧ ev1 = ev ∧ s = false) ∨
    (p.error = false ∧
        buildCallback d i b req (b.effect fs5) (ev ++ [Event.execBuild]) =
          Run.responded resp fs ev1 s) := by
  unfold platformCallback at h
  by_cases hp : p.error = true
  · simp [hp] at h
    split at h
    · simp at h
    · next fs6 h6 =>
      simp at h
      obtain ⟨h1, h2, h3, h4⟩ := h
      exact Or.inl ⟨hp, fs6, h6, h1.symm, h2.symm, h3.symm, h4⟩
  · simp [hp] at h
    exact Or.inr ⟨by simpa using hp, h⟩

/-- What a response sent from the content stage looks like. -/
theorem installContent_responded {z : ZipOutcome} {req : Request} {proj : Path}
    {fs1 fs : FS} {ev1 : List Event} {resp : Response} {s : Bool}
    (h : installContent z req proj fs1 = Staged.done (Run.responded resp fs ev1 s)) :
    ∃ fs2, cleanWww fs1 (pathJoin proj ["www"]) = some fs2 ∧ s = false ∧
      ((ExtractionFails z req ∧
          ev1 = [Event.execCreate, Event.extractedZip] ∧
          resp = failureResponse 500 "Failed to extract zip file." none ∧
          ∃ fs3, unlinkIfExists (z.effect fs2) req.zipFile = some fs3 ∧ fs = rmIfExists fs3 proj) ∨
       (InvalidInput req ∧ ev1 = [Event.execCreate] ∧
          resp = failureResponse 400 "Invalid input type or missing data." none ∧
          ∃ fs4, ((unlinkIfExists fs2 req.zipFile).bind fun x => unlinkIfExists x req.iconFile) = some fs4 ∧
            fs = rmIfExists fs4 proj)) := by
  cases hcw : cleanWww fs1 (pathJoin proj ["www"]) with
  | none => simp [installContent, hcw] at h
  | some fs2 =>
    refine ⟨fs2, rfl, ?_⟩
    simp only [installContent, hcw] at h
    by_cases hA : req.type = some "html_code" ∧ truthy req.htmlCode = true
    · rw [if_pos hA] at h
      split at h <;> simp at h
    · rw [if_neg hA] at h
      by_cases hB : req.type = some "url" ∧ truthy req.url = true
      · rw [if_pos hB] at h
        split at h <;> simp at h
      · rw [if_neg hB] at h
        by_cases hC : req.type = some "file" ∧ req.zipFile.isSome = true
        · rw [if_pos hC] at h
          by_cases hz : z.throws = true
          · rw [if_pos hz] at h
            cases hu : unlinkIfExists (z.effect fs2) req.zipFile with
            | none => simp [hu] at h
            | some fs3 =>
              simp [hu] at h
              obtain ⟨h4, h5, h6, h7⟩ := h
              exact ⟨h7, Or.inl ⟨⟨hA, hB, hC, hz⟩, h6.symm, h4.symm, fs3, rfl, h5.symm⟩⟩
          · rw [if_neg hz] at h
            simp at h
        · rw [if_neg hC] at h
          cases hu : ((unlinkIfExists fs2 req.zipFile).bind fun x => unlinkIfExists x req.iconFile) with
          | none => simp [hu] at h
          | some fs4 =>
            simp [hu] at h
            obtain ⟨h5, h6, h7, h8⟩ := h
            exact ⟨h8, Or.inr ⟨⟨hA, hB, hC⟩, h7.symm, h5.symm, fs4, rfl, h6.symm⟩⟩

/-- What the content stage leaves when the pipeline goes on. -/
theorem installContent_ready {z : ZipOutcome} {req : Request} {proj : Path}
    {fs1 fs3 : FS} {ev : List Event}
    (h : installContent z req proj fs1 = Staged.ready fs3 ev) :
    ∃ fs2, cleanWww fs1 (pathJoin proj ["www"]) = some fs2 ∧ ¬ InvalidInput req ∧
      ((req.type = some "html_code" ∧ truthy req.htmlCode = true ∧
          writeFileSync fs2 (pathJoin (pathJoin proj ["www"]) ["index.html"]) (req.htmlCode.getD "") = some fs3 ∧
          ev = [Event.execCreate, Event.wroteIndex]) ∨
       (req.type = some "url" ∧ truthy req.url = true ∧
          writeFileSync fs2 (pathJoin (pathJoin proj ["www"]) ["index.html"])
            (wrapper req.appName (req.url.getD "")) = some fs3 ∧
          ev = [Event.execCreate, Event.wroteIndex]) ∨
       (req.type = some "file" ∧ req.zipFile.isSome = true ∧ z.throws = false ∧
          fs3 = z.effect fs2 ∧ ev = [Event.execCreate, Event.extractedZip])) := by
  cases hcw : cleanWww fs1 (pathJoin proj ["www"]) with
  | none => simp [installContent, hcw] at h
  | some fs2 =>
    refine ⟨fs2, rfl, ?_⟩
    simp only [installContent, hcw] at h
    by_cases hA : req.type = some "html_code" ∧ truthy req.htmlCode = true
    · rw [if_pos hA] at h
      cases hw : writeFileSync fs2 (pathJoin (pathJoin proj ["www"]) ["index.html"]) (req.htmlCode.getD "") with
      | none => simp [hw] at h
      | some fsx =>
        simp [hw] at h
        exact ⟨fun hi => hi.1 hA, Or.inl ⟨hA.1, hA.2, by rw [h.1], h.2.symm⟩⟩
    · rw [if_neg hA] at h
      by_cases hB : req.type = some "url" ∧ truthy req.url = true
      · rw [if_pos hB] at h
        cases hw : writeFileSync fs2 (pathJoin (pathJoin proj ["www"]) ["index.html"])
            (wrapper req.appName (req.url.getD "")) with
        | none => simp [hw] at h
        | some fsx =>
          simp [hw] at h
          exact ⟨fun hi => hi.2.1 hB, Or.inr (Or.inl ⟨hB.1, hB.2, by rw [h.1], h.2.symm⟩)⟩
      · rw [if_neg hB] at h
        by_cases hC : req.type = some "file" ∧ req.zipFile.isSome = true
        · rw [if_pos hC] at h
          by_cases hz : z.throws = true
          · rw [if_pos hz] at h
            split at h <;> simp at h
          · rw [if_neg hz] at h
            simp at h
            exact ⟨fun hi => hi.2.2 hC, Or.inr (Or.inr ⟨hC.1, hC.2, by simpa using hz, h.1.symm, h.2.symm⟩)⟩
        · rw [if_neg hC] at h
          split at h <;> simp at h

/-- What a response of a run looks like: it comes from the scaffolding failureResponse, from the
content stage, or from the platform callback. -/
theorem generateApk_responded {d : Path} {i : String} {c p b : ExecOutcome} {z : ZipOutcome}
    {req : Request} {fs0 fs : FS} {ev : List Event} {resp : Response} {s : Bool}
    (h : generateApk d i c p b z req fs0 = Run.responded resp fs ev s) :
    (c.error = true ∧ resp = failureResponse 500 "Failed to create Cordova project." (some c.stderr) ∧
        fs = c.effect fs0 ∧ ev = [Event.execCreate] ∧ s = false) ∨
    (c.error = false ∧
        installContent z req (projectPathOf d i) (c.effect fs0) =
          Staged.done (Run.responded resp fs ev s)) ∨
    (c.error = false ∧ ∃ fs3 ev3 fs4,
        installContent z req (projectPathOf d i) (c.effect fs0) = Staged.ready fs3 ev3 ∧
        installIcon req (projectPathOf d i) fs3 = some fs4 ∧
        platformCallback d i p b req (p.effect fs4) (eventsAtPlatformAdd req ev3) =
          Run.responded resp fs ev s) := by
  by_cases hc : c.error = true
  · simp [generateApk, hc] at h
    obtain ⟨h1, h2, h3, h4⟩ := h
    exact Or.inl ⟨hc, h1.symm, h2.symm, h3.symm, h4⟩
  · have hc' : c.error = false := by simpa using hc
    simp only [generateApk, hc', Bool.false_eq_true, if_false] at h
    cases hic : installContent z req (projectPathOf d i) (c.effect fs0) with
    | done run =>
      rw [hic] at h
      simp only at h
      exact Or.inr (Or.inl ⟨hc', by rw [h]⟩)
    | ready fs3 ev3 =>
      rw [hic] at h
      simp only at h
      cases hii : installIcon req (projectPathOf d i) fs3 with
      | none => rw [hii] at h; simp at h
      | some fs4 =>
        rw [hii] at h
        simp only at h
        exact Or.inr (Or.inr ⟨hc', fs3, ev3, fs4, rfl, hii, h⟩)

/-- The guarded removal of both uploads leaves neither of them. -/
theorem uploads_absent {req : Request} {fs fs1 : FS}
    (h : ((unlinkIfExists fs req.zipFile).bind fun x => unlinkIfExists x req.iconFile) = some fs1) :
    Shrinks fs fs1 ∧ (∀ q, req.zipFile = some q → existsSync fs1 q = false) ∧
      (∀ q, req.iconFile = some q → existsSync fs1 q = false) := by
  cases hz : unlinkIfExists fs req.zipFile with
  | none => simp [hz] at h
  | some fsA =>
    simp [hz] at h
    refine ⟨(shrinks_unlinkIfExists hz).trans (shrinks_unlinkIfExists h), ?_, ?_⟩
    · intro q hq
      rw [hq] at hz
      exact (shrinks_unlinkIfExists h).absent (absent_unlinkIfExists hz)
    · intro q hq
      rw [hq] at h
      exact absent_unlinkIfExists h

theorem isDirectory_of_shrinks {fs fs1 : FS} (h : Shrinks fs fs1) {q : Path}
    (hq : isDirectory fs q = false) : isDirectory fs1 q = false := by
  unfold isDirectory at *
  rcases h q with h1 | h1
  · simp [h1]
  · rw [h1]; exact hq

theorem UploadsRemovable.shrinks {req : Request} {fs fs1 : FS} (h : UploadsRemovable req fs)
    (hs : Shrinks fs fs1) : UploadsRemovable req fs1 :=
  ⟨fun q hq => isDirectory_of_shrinks hs (h.1 q hq), fun q hq => isDirectory_of_shrinks hs (h.2 q hq)⟩

theorem unlinkIfExists_total (fs : FS) (o : Option Path)
    (h : ∀ q, o = some q → isDirectory fs q = false) : ∃ fs1, unlinkIfExists fs o = some fs1 := by
  cases o with
  | none => exact ⟨fs, rfl⟩
  | some q => exact unlinkIfExists_isSome fs q (h q rfl)

/-- The removal of both uploads goes through when neither is a directory. -/
theorem unlinkUploads_total (req : Request) (fs : FS) (h : UploadsRemovable req fs) :
    ∃ fs1, ((unlinkIfExists fs req.zipFile).bind fun x => unlinkIfExists x req.iconFile) = some fs1 := by
  obtain ⟨fsA, hA⟩ := unlinkIfExists_total fs req.zipFile h.1
  obtain ⟨fsB, hB⟩ := unlinkIfExists_total fsA req.iconFile
    (fun q hq => isDirectory_of_shrinks (shrinks_unlinkIfExists hA) (h.2 q hq))
  exact ⟨fsB, by simp [hA, hB]⟩

theorem installContent_invalid {z : ZipOutcome} {req : Request} {proj : Path} {fs1 fs2 fs4 : FS}
    (hinv : InvalidInput req) (hcw : cleanWww fs1 (pathJoin proj ["www"]) = some fs2)
    (hu : ((unlinkIfExists fs2 req.zipFile).bind fun x => unlinkIfExists x req.iconFile) = some fs4) :
    installContent z req proj fs1 =
      Staged.done (Run.responded (failureResponse 400 "Invalid input type or missing data." none)
        (rmIfExists fs4 proj) [Event.execCreate] false) := by
  obtain ⟨hA, hB, hC⟩ := hinv
  simp only [installContent, hcw, if_neg hA, if_neg hB, if_neg hC, hu]

theorem generateApk_of_done {d : Path} {i : String} {c p b : ExecOutcome} {z : ZipOutcome}
    {req : Request} {fs0 : FS} {run : Run} (hc : c.error = false)
    (h : installContent z req (projectPathOf d i) (c.effect fs0) = Staged.done run) :
    generateApk d i c p b z req fs0 = run := by
  simp only [generateApk, hc, Bool.false_eq_true, if_false, h]

theorem generateApk_of_ready {d : Path} {i : String} {c p b : ExecOutcome} {z : ZipOutcome}
    {req : Request} {fs0 fs3 fs4 : FS} {ev3 : List Event} (hc : c.error = false)
    (h : installContent z req (projectPathOf d i) (c.effect fs0) = Staged.ready fs3 ev3)
    (hi : installIcon req (projectPathOf d i) fs3 = some fs4) :
    generateApk d i c p b z req fs0 =
      platformCallback d i p b req (p.effect fs4) (eventsAtPlatformAdd req ev3) := by
  simp only [generateApk, hc, Bool.false_eq_true, if_false, h, hi]

theorem platformCallback_of_error {d : Path} {i : String} {p b : ExecOutcome} {req : Request}
    {fs5 fs6 : FS} {ev : List Event} (hp : p.error = true)
    (hu : ((unlinkIfExists fs5 req.zipFile).bind fun x => unlinkIfExists x req.iconFile) = some fs6) :
    platformCallback d i p b req fs5 ev =
      Run.responded (failureResponse 500 "Failed to add Android platform." (some p.stderr))
        (rmIfExists fs6 (projectPathOf d i)) ev false := by
  simp only [platformCallback, hp, if_true, hu]

theorem platformCallback_of_ok {d : Path} {i : String} {p b : ExecOutcome} {req : Request}
    {fs5 : FS} {ev : List Event} (hp : p.error = false) :
    platformCallback d i p b req fs5 ev =
      buildCallback d i b req (b.effect fs5) (ev ++ [Event.execBuild]) := by
  simp only [platformCallback, hp, Bool.false_eq_true, if_false]

theorem buildCallback_of_error {d : Path} {i : String} {b : ExecOutcome} {req : Request}
    {fs6 fs7 : FS} {ev : List Event} (hb : b.error = true)
    (hu : ((unlinkIfExists fs6 req.zipFile).bind fun x => unlinkIfExists x req.iconFile) = some fs7) :
    buildCallback d i b req fs6 ev =
      Run.responded (failureResponse 500 "Failed to build Android app." (some b.stderr))
        (rmIfExists fs7 (projectPathOf d i)) ev false := by
  simp only [buildCallback, hu, hb, if_true]

theorem buildCallback_of_missing {d : Path} {i : String} {b : ExecOutcome} {req : Request}
    {fs6 fs7 : FS} {ev : List Event} (hb : b.error = false)
    (hu : ((unlinkIfExists fs6 req.zipFile).bind fun x => unlinkIfExists x req.iconFile) = some fs7)
    (ha : existsSync fs7 (apkPathOf (projectPathOf d i)) = false) :
    buildCallback d i b req fs6 ev =
      Run.responded (failureResponse 500 "APK build failed or APK file not found." none)
        (rmIfExists fs7 (projectPathOf d i)) ev false := by
  simp only [buildCallback, hu, hb, ha, Bool.false_eq_true, if_false]

theorem buildCallback_of_copied {d : Path} {i : String} {b : ExecOutcome} {req : Request}
    {fs6 fs7 fs8 : FS} {ev : List Event} (hb : b.error = false)
    (hu : ((unlinkIfExists fs6 req.zipFile).bind fun x => unlinkIfExists x req.iconFile) = some fs7)
    (ha : existsSync fs7 (apkPathOf (projectPathOf d i)) = true)
    (hcp : copyFileSync fs7 (apkPathOf (projectPathOf d i)) (finalApkPathOf d req.appName i) = some fs8) :
    buildCallback d i b req fs6 ev =
      Run.responded (successResponse req.appName i)
        fs8 (ev ++ [Event.exported (finalApkPathOf d req.appName i)]) true := by
  simp only [buildCallback, hu, hb, ha, hcp, Bool.false_eq_true, if_false, if_true]

theorem buildCallback_of_copy_throws {d : Path} {i : String} {b : ExecOutcome} {req : Request}
    {fs6 fs7 : FS} {ev : List Event} (hb : b.error = false)
    (hu : ((unlinkIfExists fs6 req.zipFile).bind fun x => unlinkIfExists x req.iconFile) = some fs7)
    (ha : existsSync fs7 (apkPathOf (projectPathOf d i)) = true)
    (hcp : copyFileSync fs7 (apkPathOf (projectPathOf d i)) (finalApkPathOf d req.appName i) = none) :
    buildCallback d i b req fs6 ev = Run.threw ev := by
  simp only [buildCallback, hu, hb, ha, hcp, Bool.false_eq_true, if_false, if_true]

theorem events_of_ready {z : ZipOutcome} {req : Request} {proj : Path}
    {fs1 fs3 : FS} {ev : List Event}
    (h : installContent z req proj fs1 = Staged.ready fs3 ev) :
    ev = [Event.execCreate, Event.wroteIndex] ∨ ev = [Event.execCreate, Event.extractedZip] := by
  obtain ⟨_, _, _, h1 | h1 | h1⟩ := installContent_ready h
  · exact Or.inl h1.2.2.2
  · exact Or.inl h1.2.2.2
  · exact Or.inr h1.2.2.2.2

theorem eventsAtPlatformAdd_spec (req : Request) {ev : List Event}
    (h : ev = [Event.execCreate, Event.wroteIndex] ∨ ev = [Event.execCreate, Event.extractedZip]) :
    Event.execBuild ∉ eventsAtPlatformAdd req ev ∧ NoExport (eventsAtPlatformAdd req ev) := by
  unfold NoExport eventsAtPlatformAdd
  rcases h with h | h <;> subst h <;> cases req.iconFile <;> simp

theorem buildCallback_export (d : Path) (i : String) (b : ExecOutcome) (req : Request)
    (fs6 : FS) (ev : List Event) (hev : NoExport ev) :
    NoExport (buildCallback d i b req fs6 ev).events ∨
    ∃ fs, buildCallback d i b req fs6 ev =
      Run.responded (successResponse req.appName i) fs
        (ev ++ [Event.exported (finalApkPathOf d req.appName i)]) true := by
  cases hu : ((unlinkIfExists fs6 req.zipFile).bind fun x => unlinkIfExists x req.iconFile) with
  | none => left; simp only [buildCallback, hu, Run.events]; exact hev
  | some fs7 =>
    by_cases hb : b.error = true
    · left; rw [buildCallback_of_error hb hu]; exact hev
    · have hb' : b.error = false := by simpa using hb
      by_cases ha : existsSync fs7 (apkPathOf (projectPathOf d i)) = true
      · cases hcp : copyFileSync fs7 (apkPathOf (projectPathOf d i)) (finalApkPathOf d req.appName i) with
        | none => left; rw [buildCallback_of_copy_throws hb' hu ha hcp]; exact hev
        | some fs8 => right; exact ⟨fs8, buildCallback_of_copied hb' hu ha hcp⟩
      · left; rw [buildCallback_of_missing hb' hu (by simpa using ha)]; exact hev

theorem NoExport.append_execBuild {ev : List Event} (h : NoExport ev) :
    NoExport (ev ++ [Event.execBuild]) := by
  intro dst hm
  rcases List.mem_append.1 hm with h1 | h1
  · exact h dst h1
  · simp at h1

theorem platformCallback_export (d : Path) (i : String) (p b : ExecOutcome) (req : Request)
    (fs5 : FS) (ev : List Event) (hev : NoExport ev) :
    NoExport (platformCallback d i p b req fs5 ev).events ∨
    ∃ fs, platformCallback d i p b req fs5 ev =
      Run.responded (successResponse req.appName i) fs
        (ev ++ [Event.execBuild] ++ [Event.exported (finalApkPathOf d req.appName i)]) true := by
  by_cases hp : p.error = true
  · left
    cases hu : ((unlinkIfExists fs5 req.zipFile).bind fun x => unlinkIfExists x req.iconFile) with
    | none => simp only [platformCallback, hp, if_true, hu, Run.events]; exact hev
    | some fs6 => rw [platformCallback_of_error hp hu]; exact hev
  · rw [platformCallback_of_ok (by simpa using hp)]
    exact buildCallback_export d i b req _ _ hev.append_execBuild

theorem installContent_done_events {z : ZipOutcome} {req : Request} {proj : Path} {fs1 : FS}
    {run : Run} (h : installContent z req proj fs1 = Staged.done run) : NoExport run.events := by
  have key : run.events = [Event.execCreate] ∨ run.events = [Event.execCreate, Event.extractedZip] := by
    cases hcw : cleanWww fs1 (pathJoin proj ["www"]) with
    | none => simp [installContent, hcw] at h; subst h; simp [Run.events]
    | some fs2 =>
      simp only [installContent, hcw] at h
      by_cases hA : req.type = some "html_code" ∧ truthy req.htmlCode = true
      · rw [if_pos hA] at h
        split at h <;> simp at h
        subst h; simp [Run.events]
      · rw [if_neg hA] at h
        by_cases hB : req.type = some "url" ∧ truthy req.url = true
        · rw [if_pos hB] at h
          split at h <;> simp at h
          subst h; simp [Run.events]
        · rw [if_neg hB] at h
          by_cases hC : req.type = some "file" ∧ req.zipFile.isSome = true
          · rw [if_pos hC] at h
            by_cases hz : z.throws = true
            · rw [if_pos hz] at h
              split at h <;> simp at h <;> subst h <;> simp [Run.events]
            · rw [if_neg hz] at h
              simp at h
          · rw [if_neg hC] at h
            split at h <;> simp at h <;> subst h <;> simp [Run.events]
  intro dst hm
  rcases key with k | k <;> rw [k] at hm <;> simp at hm

/-- An export is recorded only in a run that answers with success. -/
theorem generateApk_export (d : Path) (i : String) (c p b : ExecOutcome) (z : ZipOutcome)
    (req : Request) (fs0 : FS) :
    NoExport (generateApk d i c p b z req fs0).events ∨
    ∃ fs ev, generateApk d i c p b z req fs0 =
      Run.responded (successResponse req.appName i) fs ev true := by
  by_cases hc : c.error = true
  · left
    simp only [generateApk, hc, if_true, Run.events]
    intro dst hm; simp at hm
  · have hc' : c.error = false := by simpa using hc
    cases hic : installContent z req (projectPathOf d i) (c.effect fs0) with
    | done run =>
      left
      rw [generateApk_of_done hc' hic]
      exact installContent_done_events hic
    | ready fs3 ev3 =>
      cases hii : installIcon req (projectPathOf d i) fs3 with
      | none =>
        left
        simp only [generateApk, hc', Bool.false_eq_true, if_false, hic, hii, Run.events]
        intro dst hm
        rcases events_of_ready hic with k | k <;> rw [k] at hm <;> simp at hm
      | some fs4 =>
        rw [generateApk_of_ready hc' hic hii]
        rcases platformCallback_export d i p b req (p.effect fs4) _
            (eventsAtPlatformAdd_spec req (events_of_ready hic)).2 with h | ⟨fs, h⟩
        · exact Or.inl h
        · exact Or.inr ⟨fs, _, h⟩

theorem stateAtArtifactCheck_of_ready {d : Path} {i : String} {c p b : ExecOutcome}
    {z : ZipOutcome} {req : Request} {fs0 fs3 fs4 : FS} {ev3 : List Event}
    (h : installContent z req (projectPathOf d i) (c.effect fs0) = Staged.ready fs3 ev3)
    (hi : installIcon req (projectPathOf d i) fs3 = some fs4) :
    stateAtArtifactCheck d i c p b z req fs0 =
      (unlinkIfExists (b.effect (p.effect fs4)) req.zipFile).bind fun x =>
        unlinkIfExists x req.iconFile := by
  simp only [stateAtArtifactCheck, h, hi, Option.some_bind]

theorem stateAtArtifactCheck_some {d : Path} {i : String} {c p b : ExecOutcome}
    {z : ZipOutcome} {req : Request} {fs0 fs7 : FS}
    (h : stateAtArtifactCheck d i c p b z req fs0 = some fs7) :
    ∃ fs3 ev3 fs4, installContent z req (projectPathOf d i) (c.effect fs0) = Staged.ready fs3 ev3 ∧
      installIcon req (projectPathOf d i) fs3 = some fs4 ∧
      ((unlinkIfExists (b.effect (p.effect fs4)) req.zipFile).bind fun x =>
        unlinkIfExists x req.iconFile) = some fs7 := by
  unfold stateAtArtifactCheck at h
  cases hic : installContent z req (projectPathOf d i) (c.effect fs0) with
  | done run => rw [hic] at h; simp at h
  | ready fs3 ev3 =>
    rw [hic] at h
    simp only at h
    cases hii : installIcon req (projectPathOf d i) fs3 with
    | none => rw [hii] at h; simp at h
    | some fs4 =>
      rw [hii] at h
      exact ⟨fs3, ev3, fs4, rfl, hii, h⟩

theorem not_extractionFails_of_ready {z : ZipOutcome} {req : Request} {proj : Path}
    {fs1 fs3 : FS} {ev : List Event}
    (h : installContent z req proj fs1 = Staged.ready fs3 ev) : ¬ ExtractionFails z req := by
  obtain ⟨_, _, _, h1 | h1 | h1⟩ := installContent_ready h
  · exact fun hx => hx.1 ⟨h1.1, h1.2.1⟩
  · exact fun hx => hx.2.1 ⟨h1.1, h1.2.1⟩
  · intro hx
    have := hx.2.2.2
    rw [h1.2.2.1] at this
    simp at this

theorem copyFileSync_total {fs : FS} {src dst : Path} {content : String}
    (hsrc : stat fs src = some (Node.file content))
    (hdir : isDirectory fs dst.dropLast = true) (hdst : isDirectory fs dst = false) :
    copyFileSync fs src dst =
      some ((dst, Node.file content) :: fs.filter fun e => e.1 ≠ dst) := by
  simp [copyFileSync, readFileSync, hsrc, writeFileSync, hdir, hdst]

theorem stat_unlinkIfExists_ne {fs fs1 : FS} {o : Option Path}
    (h : unlinkIfExists fs o = some fs1) (q : Path) (hq : o ≠ some q) : stat fs1 q = stat fs q := by
  cases o with
  | none => simp [unlinkIfExists] at h; rw [h]
  | some p =>
    have hne : q ≠ p := fun e => hq (by rw [e])
    simp only [unlinkIfExists] at h
    split at h
    · rw [stat_unlinkSync h, if_neg hne]
    · simp at h; rw [h]

theorem isJsSpace_replaceSpaceRunsAux (cs : List Char) (b : Bool) :
    ∀ ch ∈ replaceSpaceRunsAux b cs, isJsSpace ch = false := by
  induction cs generalizing b with
  | nil => simp [replaceSpaceRunsAux]
  | cons c cs ih =>
    unfold replaceSpaceRunsAux
    split
    · split
      · exact ih true
      · intro ch hch
        rcases List.mem_cons.1 hch with h | h
        · rw [h]; decide
        · exact ih true ch h
    · next hc =>
      intro ch hch
      rcases List.mem_cons.1 hch with h | h
      · rw [h]; simpa using hc
      · exact ih false ch h

theorem sanitize_no_space (a : String) : ∀ ch ∈ (sanitize a).data, isJsSpace ch = false :=
  isJsSpace_replaceSpaceRunsAux a.data false

theorem writeFileSync_total {fs : FS} {p : Path} (content : String)
    (hdir : isDirectory fs p.dropLast = true) (hp : isDirectory fs p = false) :
    writeFileSync fs p content = some ((p, Node.file content) :: fs.filter fun e => e.1 ≠ p) := by
  simp [writeFileSync, hdir, hp]

theorem readFileSync_head (fs : FS) (p : Path) (content : String) (hp : p ≠ []) :
    readFileSync ((p, Node.file content) :: fs) p = some content := by
  simp [readFileSync, stat, hp, lookup]

/-- The content stage of an inline-markup request over a scaffolded project. -/
theorem installContent_markup {z : ZipOutcome} {req : Request} {proj : Path} {fs1 : FS}
    {h : String} (htype : req.type = some "html_code") (hhtml : req.htmlCode = some h)
    (hne : h ≠ "") (htree : ProperTree fs1)
    (hwww : isDirectory fs1 (pathJoin proj ["www"]) = true) :
    ∃ fs3, installContent z req proj fs1 =
        Staged.ready fs3 [Event.execCreate, Event.wroteIndex] ∧
      readFileSync fs3 (pathJoin (pathJoin proj ["www"]) ["index.html"]) = some h := by
  obtain ⟨fs2, hcw, _, hgone, hkeep⟩ := cleanWww_spec _ _ htree hwww
  have hidx : pathJoin (pathJoin proj ["www"]) ["index.html"] =
      pathJoin proj ["www"] ++ ["index.html"] := by
    rw [pathJoin_cons_proper _ _ _ (by decide), pathJoin_nil]
  have hdir : isDirectory fs2 (pathJoin proj ["www"] ++ ["index.html"]).dropLast = true := by
    rw [List.dropLast_concat]
    unfold isDirectory at *
    rw [hkeep _ (Or.inr rfl)]
    exact hwww
  have hnd : isDirectory fs2 (pathJoin proj ["www"] ++ ["index.html"]) = false := by
    simp [isDirectory, hgone]
  have hA : req.type = some "html_code" ∧ truthy req.htmlCode = true := by
    refine ⟨htype, ?_⟩
    rw [hhtml]
    simpa [truthy] using hne
  refine ⟨(pathJoin proj ["www"] ++ ["index.html"], Node.file h) ::
      fs2.filter fun e => e.1 ≠ pathJoin proj ["www"] ++ ["index.html"], ?_, ?_⟩
  · simp only [installContent, hcw]
    rw [if_pos hA, hidx, hhtml, Option.getD_some, writeFileSync_total _ hdir hnd]
  · rw [hidx]
    exact readFileSync_head _ _ _ (by simp)

theorem installIcon_none {req : Request} (proj : Path) (fs : FS) (h : req.iconFile = none) :
    installIcon req proj fs = some fs := by
  simp [installIcon, h]

theorem copyFileSync_some {fs fs1 : FS} {src dst : Path} (h : copyFileSync fs src dst = some fs1) :
    ∃ content, readFileSync fs src = some content ∧ readFileSync fs1 dst = some content := by
  unfold copyFileSync at h
  cases hr : readFileSync fs src with
  | none => rw [hr] at h; simp at h
  | some content =>
    rw [hr] at h
    simp only [Option.some_bind, writeFileSync] at h
    split at h
    · next hw =>
      simp only [Option.some.injEq] at h
      subst h
      have hne : dst ≠ [] := by
        intro e
        subst e
        simp [isDirectory, stat] at hw
      exact ⟨content, rfl, readFileSync_head _ _ _ hne⟩
    · simp at h

/-- A success response comes from the export of line 188. -/
theorem generateApk_success {d : Path} {i : String} {c p b : ExecOutcome} {z : ZipOutcome}
    {req : Request} {fs0 fs : FS} {ev : List Event} {resp : Response} {s : Bool}
    (hrun : generateApk d i c p b z req fs0 = Run.responded resp fs ev s)
    (hs : resp.success = true) :
    resp = successResponse req.appName i ∧ s = true ∧
      Event.exported (finalApkPathOf d req.appName i) ∈ ev ∧
      ∃ fs7, copyFileSync fs7 (apkPathOf (projectPathOf d i)) (finalApkPathOf d req.appName i) =
        some fs := by
  rcases generateApk_responded hrun with h | h | h
  · rw [h.2.1] at hs; simp [failureResponse] at hs
  · obtain ⟨fs2, _, _, hcase⟩ := installContent_responded h.2
    rcases hcase with ⟨_, _, hr, _⟩ | ⟨_, _, hr, _⟩ <;>
      · rw [hr] at hs; simp [failureResponse] at hs
  · obtain ⟨_, fs3, ev3, fs4, _, _, hp⟩ := h
    rcases platformCallback_responded hp with ⟨_, fs6, _, hr, _⟩ | ⟨_, hb⟩
    · rw [hr] at hs; simp [failureResponse] at hs
    · obtain ⟨fs7, _, hcase⟩ := buildCallback_responded hb
      rcases hcase with ⟨_, hr, _⟩ | ⟨_, _, hr, _⟩ | ⟨_, _, hcp, hr, hev, hs1⟩
      · rw [hr] at hs; simp [failureResponse] at hs
      · rw [hr] at hs; simp [failureResponse] at hs
      · exact ⟨hr, hs1, by rw [hev]; simp, fs7, hcp⟩

/-! ## Lemmas on occurrences in a text -/

theorem isPrefixOf_eq_true_iff (pat l : List Char) : pat.isPrefixOf l = true ↔ pat <+: l :=
  List.isPrefixOf_iff_prefix

/-- An occurrence that starts in `s2` and reaches into `t` makes the head of `t` a
character of the pattern past its first one. -/
theorem prefix_append_of_head {pat s2 t : List Char} (hs2 : s2 ≠ [])
    (hB : ∀ x ∈ t.head?, x ∉ pat.tail) (h : pat <+: s2 ++ t) : pat <+: s2 := by
  rcases List.prefix_or_prefix_of_prefix h (List.prefix_append s2 t) with h1 | h1
  · exact h1
  · obtain ⟨r, hr⟩ := h1
    rw [← hr] at h
    have hrt : r <+: t := (List.prefix_append_right_inj s2).1 h
    cases r with
    | nil => rw [← hr]; simp
    | cons x r1 =>
      exfalso
      obtain ⟨t1, ht⟩ := hrt
      have hx : x ∈ t.head? := by rw [← ht]; simp
      apply hB x hx
      cases s2 with
      | nil => exact absurd rfl hs2
      | cons y s3 => rw [← hr]; simp

/-- An occurrence that starts in `s2` and reaches into `t` makes the last character of
`s2` a character of the pattern before its last one. -/
theorem prefix_append_of_last {pat s2 t : List Char} (hs2 : s2 ≠ [])
    (hB : ∀ x ∈ s2.getLast?, x ∉ pat.dropLast) (h : pat <+: s2 ++ t) : pat <+: s2 := by
  rcases List.prefix_or_prefix_of_prefix h (List.prefix_append s2 t) with h1 | h1
  · exact h1
  · obtain ⟨r, hr⟩ := h1
    cases r with
    | nil => rw [← hr]; simp
    | cons x r1 =>
      exfalso
      have hl : s2.getLast hs2 ∈ s2.getLast? := by simp [List.getLast?_eq_getLast _ hs2]
      apply hB _ hl
      rw [← hr, List.dropLast_append_of_ne_nil _ (by simp)]
      exact List.mem_append_left _ (List.getLast_mem hs2)

theorem countOcc_zero_no_start {pat : List Char} :
    ∀ {s : List Char}, countOcc pat s = 0 → ∀ s1 s2, s = s1 ++ s2 → s2 ≠ [] → ¬ pat <+: s2 := by
  intro s
  induction s with
  | nil => intro _ s1 s2 h hs2; simp at h; exact absurd h.2 hs2
  | cons c cs ih =>
    intro h0 s1 s2 h hs2 hp
    simp only [countOcc] at h0
    have h1 : ¬ pat.isPrefixOf (c :: cs) = true := by
      intro e; rw [if_pos e] at h0; omega
    have h2 : countOcc pat cs = 0 := by omega
    cases s1 with
    | nil =>
      simp at h
      rw [← h] at hp
      exact h1 ((isPrefixOf_eq_true_iff _ _).2 hp)
    | cons y s3 =>
      simp at h
      exact ih h2 s3 s2 h.2 hs2 hp

theorem getLast?_suffix {s s1 s2 : List Char} (h : s = s1 ++ s2) (hs2 : s2 ≠ []) :
    s2.getLast? = s.getLast? := by
  rw [h, List.getLast?_append_of_ne_nil _ hs2]

/-- A text without the pattern, followed by a text whose first character cannot continue
the pattern, holds no start of an occurrence. -/
theorem noStart_of_head {pat s t : List Char} (h0 : countOcc pat s = 0)
    (hB : ∀ x ∈ t.head?, x ∉ pat.tail) : NoStart pat s t :=
  fun s1 s2 h hs2 hp => countOcc_zero_no_start h0 s1 s2 h hs2 (prefix_append_of_head hs2 hB hp)

/-- A text without the pattern whose last character cannot be inside the pattern holds no
start of an occurrence, whatever follows. -/
theorem noStart_of_last {pat s t : List Char} (h0 : countOcc pat s = 0)
    (hB : ∀ x ∈ s.getLast?, x ∉ pat.dropLast) : NoStart pat s t :=
  fun s1 s2 h hs2 hp => countOcc_zero_no_start h0 s1 s2 h hs2
    (prefix_append_of_last hs2 (by rw [getLast?_suffix h hs2]; exact hB) hp)

theorem NoStart.tail {pat : List Char} {c : Char} {cs t : List Char}
    (h : NoStart pat (c :: cs) t) : NoStart pat cs t :=
  fun s1 s2 e hs2 => h (c :: s1) s2 (by rw [e]; rfl) hs2

theorem NoStart.append {pat x y t : List Char} (hx : NoStart pat x (y ++ t))
    (hy : NoStart pat y t) : NoStart pat (x ++ y) t := by
  induction x with
  | nil => simpa using hy
  | cons c cs ih =>
    intro s1 s2 e hs2 hp
    cases s1 with
    | nil =>
      simp at e
      rw [← e] at hp
      exact hx [] (c :: cs) rfl (by simp) (by simpa using hp)
    | cons d s3 =>
      simp at e
      exact ih hx.tail s3 s2 e.2 hs2 hp

theorem countOcc_append_noStart {pat : List Char} :
    ∀ {s t : List Char}, NoStart pat s t → countOcc pat (s ++ t) = countOcc pat t := by
  intro s
  induction s with
  | nil => intro t _; rfl
  | cons c cs ih =>
    intro t h
    have h1 : ¬ pat.isPrefixOf (c :: (cs ++ t)) = true := fun e =>
      h [] (c :: cs) rfl (by simp) ((isPrefixOf_eq_true_iff _ _).1 e)
    show (if pat.isPrefixOf (c :: (cs ++ t)) then 1 else 0) + countOcc pat (cs ++ t) = _
    rw [if_neg h1, ih h.tail]
    omega

/-- Occurrences add up over a concatenation whose second part starts with a character
that cannot continue the pattern. -/
theorem countOcc_append_of_head {pat : List Char} {t : List Char}
    (hB : ∀ x ∈ t.head?, x ∉ pat.tail) :
    ∀ s : List Char, countOcc pat (s ++ t) = countOcc pat s + countOcc pat t := by
  intro s
  induction s with
  | nil => simp [countOcc]
  | cons c cs ih =>
    have e : pat.isPrefixOf (c :: cs ++ t) = pat.isPrefixOf (c :: cs) := by
      rw [Bool.eq_iff_iff, isPrefixOf_eq_true_iff, isPrefixOf_eq_true_iff]
      exact ⟨prefix_append_of_head (by simp) hB, fun h => h.trans (List.prefix_append _ _)⟩
    show (if pat.isPrefixOf (c :: cs ++ t) then 1 else 0) + countOcc pat (cs ++ t) = _
    rw [e, ih]
    simp only [countOcc]
    omega

/-- Occurrences add up over a concatenation whose first part ends with a character that
cannot be inside the pattern. -/
theorem countOcc_append_of_last {pat : List Char} (t : List Char) :
    ∀ s : List Char, (∀ x ∈ s.getLast?, x ∉ pat.dropLast) →
      countOcc pat (s ++ t) = countOcc pat s + countOcc pat t := by
  intro s
  induction s with
  | nil => intro _; simp [countOcc]
  | cons c cs ih =>
    intro hB
    have e : pat.isPrefixOf (c :: cs ++ t) = pat.isPrefixOf (c :: cs) := by
      rw [Bool.eq_iff_iff, isPrefixOf_eq_true_iff, isPrefixOf_eq_true_iff]
      exact ⟨prefix_append_of_last (by simp) hB, fun h => h.trans (List.prefix_append _ _)⟩
    have hB' : ∀ x ∈ cs.getLast?, x ∉ pat.dropLast := by
      cases cs with
      | nil => simp
      | cons d ds => simpa [List.getLast?_cons_cons] using hB
    show (if pat.isPrefixOf (c :: cs ++ t) then 1 else 0) + countOcc pat (cs ++ t) = _
    rw [e, ih hB']
    simp only [countOcc]
    omega

theorem valueAfter_append_noStart {pat marker : List Char} (hpm : pat <+: marker) :
    ∀ {s t : List Char}, NoStart pat s t → valueAfter marker (s ++ t) = valueAfter marker t := by
  intro s
  induction s with
  | nil => intro t _; rfl
  | cons c cs ih =>
    intro t h
    have h1 : ¬ marker.isPrefixOf (c :: (cs ++ t)) = true := fun e =>
      h [] (c :: cs) rfl (by simp) (hpm.trans ((isPrefixOf_eq_true_iff _ _).1 e))
    show (if marker.isPrefixOf (c :: (cs ++ t)) then _ else valueAfter marker (cs ++ t)) = _
    rw [if_neg h1, ih h.tail]

theorem valueAfter_here (marker rest : List Char) (hm : marker ≠ []) :
    valueAfter marker (marker ++ rest) = some (rest.takeWhile fun x => x != '"') := by
  cases marker with
  | nil => exact absurd rfl hm
  | cons c cs =>
    have h1 : (c :: cs).isPrefixOf (c :: (cs ++ rest)) = true :=
      (isPrefixOf_eq_true_iff _ _).2 (List.prefix_append (c :: cs) rest)
    show (if (c :: cs).isPrefixOf (c :: (cs ++ rest)) then
      some (((c :: (cs ++ rest)).drop (c :: cs).length).takeWhile fun x => x != '"')
      else valueAfter (c :: cs) (cs ++ rest)) = _
    rw [if_pos h1]
    have : (c :: (cs ++ rest)).drop (c :: cs).length = rest := by
      rw [← List.cons_append, List.drop_left]
    rw [this]

theorem takeWhile_not_quote (u t : List Char) (hu : '"' ∉ u) :
    (u ++ '"' :: t).takeWhile (fun x => x != '"') = u := by
  induction u with
  | nil => simp
  | cons c cs ih =>
    have hc : c ≠ '"' := fun e => hu (by simp [e])
    have hcs : '"' ∉ cs := fun e => hu (by simp [e])
    simp [List.takeWhile_cons, hc, ih hcs]

set_option maxRecDepth 100000 in
theorem wrapperMid_split : wrapperMid.data = wrapperMidLead.data ++ iframeSrcOpen.data := by
  decide

theorem wrapper_data (a u : String) :
    (wrapper a u).data =
      wrapperHead.data ++ (a.data ++ (wrapperMidLead.data ++
        (iframeSrcOpen.data ++ (u.data ++ wrapperTail.data)))) := by
  simp only [wrapper, String.data_append, wrapperMid_split, List.append_assoc]

set_option maxRecDepth 100000 in
theorem wrapperHead_facts :
    countOcc iframeOpen.data wrapperHead.data = 0 ∧ wrapperHead.data.getLast? = some '>' := by
  decide

set_option maxRecDepth 100000 in
theorem wrapperMidLead_facts :
    countOcc iframeOpen.data wrapperMidLead.data = 0 ∧ wrapperMidLead.data.head? = some '<' := by
  decide

set_option maxRecDepth 100000 in
theorem wrapperTail_facts :
    countOcc iframeOpen.data wrapperTail.data = 0 ∧
      wrapperTail.data = '"' :: wrapperTail.data.tail := by
  decide

theorem replaceFirst_noStart {pat : List Char} (repl b : List Char) (hp : pat ≠ []) :
    ∀ {a : List Char}, NoStart pat a (pat ++ b) →
      replaceFirst pat repl (a ++ (pat ++ b)) = a ++ (repl ++ b) := by
  intro a
  induction a with
  | nil =>
    intro _
    cases pat with
    | nil => exact absurd rfl hp
    | cons c cs =>
      have h1 : (c :: cs).isPrefixOf (c :: (cs ++ b)) = true :=
        (isPrefixOf_eq_true_iff _ _).2 (List.prefix_append (c :: cs) b)
      show (if (c :: cs).isPrefixOf (c :: (cs ++ b)) then
        repl ++ (c :: (cs ++ b)).drop (c :: cs).length
        else c :: replaceFirst (c :: cs) repl (cs ++ b)) = _
      rw [if_pos h1]
      have : (c :: (cs ++ b)).drop (c :: cs).length = b := by
        rw [← List.cons_append, List.drop_left]
      rw [this]
      rfl
  | cons c cs ih =>
    intro h
    have h1 : ¬ pat.isPrefixOf (c :: (cs ++ (pat ++ b))) = true := fun e =>
      h [] (c :: cs) rfl (by simp) ((isPrefixOf_eq_true_iff _ _).1 e)
    show (if pat.isPrefixOf (c :: (cs ++ (pat ++ b))) then _
      else c :: replaceFirst pat repl (cs ++ (pat ++ b))) = _
    rw [if_neg h1, ih h.tail]
    rfl

theorem replaceFirst_absent {pat : List Char} (repl : List Char) :
    ∀ {s : List Char}, countOcc pat s = 0 → replaceFirst pat repl s = s := by
  intro s
  induction s with
  | nil => intro _; rfl
  | cons c cs ih =>
    intro h0
    simp only [countOcc] at h0
    have h1 : ¬ pat.isPrefixOf (c :: cs) = true := by
      intro e; rw [if_pos e] at h0; omega
    show (if pat.isPrefixOf (c :: cs) then _ else c :: replaceFirst pat repl cs) = _
    rw [if_neg h1, ih (by omega)]

theorem exists_first_occurrence {pat : List Char} :
    ∀ {s : List Char}, countOcc pat s ≠ 0 →
      ∃ a b, s = a ++ (pat ++ b) ∧ NoStart pat a (pat ++ b) := by
  intro s
  induction s with
  | nil => intro h; exact absurd rfl h
  | cons c cs ih =>
    intro h
    by_cases h1 : pat.isPrefixOf (c :: cs) = true
    · obtain ⟨b, hb⟩ := (isPrefixOf_eq_true_iff _ _).1 h1
      exact ⟨[], b, by simpa using hb.symm, fun s1 s2 e hs2 => by simp at e; exact absurd e.2 hs2⟩
    · have h2 : countOcc pat cs ≠ 0 := by
        simp only [countOcc, if_neg h1] at h
        omega
      obtain ⟨a, b, hab, hns⟩ := ih h2
      refine ⟨c :: a, b, by rw [hab]; rfl, ?_⟩
      intro s1 s2 e hs2 hp
      cases s1 with
      | nil =>
        simp at e
        rw [← e, List.cons_append, ← hab] at hp
        exact h1 ((isPrefixOf_eq_true_iff _ _).2 hp)
      | cons d s3 =>
        simp at e
        exact hns s3 s2 e.2 hs2 hp

theorem removeAllAux_id (m : List Char → Option (List Char)) :
    ∀ s : List Char, (∀ s1 s2, s = s1 ++ s2 → s2 ≠ [] → m s2 = none) →
      removeAllAux m 0 s = s := by
  intro s
  induction s with
  | nil => intro _; rfl
  | cons c cs ih =>
    intro h
    have h1 : m (c :: cs) = none := h [] (c :: cs) rfl (by simp)
    have h2 := ih (fun s1 s2 e hs2 => h (c :: s1) s2 (by rw [e]; rfl) hs2)
    simp only [removeAllAux, h1, h2]

theorem matchIconSrc_none {s : List Char} (h : ¬ iconOpen.data <+: s) : matchIconSrc s = none := by
  have : iconOpen.data.isPrefixOf s = false := by
    rw [Bool.eq_false_iff]
    exact fun e => h ((isPrefixOf_eq_true_iff _ _).1 e)
  have hlit : matchLit "<icon".data s = none := by
    unfold matchLit
    rw [show "<icon".data = iconOpen.data from rfl, this]
    rfl
  simp [matchIconSrc, hlit]

theorem matchIconDensity_none {s : List Char} (h : ¬ iconOpen.data <+: s) :
    matchIconDensity s = none := by
  have : iconOpen.data.isPrefixOf s = false := by
    rw [Bool.eq_false_iff]
    exact fun e => h ((isPrefixOf_eq_true_iff _ _).1 e)
  have hlit : matchLit "<icon".data s = none := by
    unfold matchLit
    rw [show "<icon".data = iconOpen.data from rfl, this]
    rfl
  simp [matchIconDensity, hlit]

/-- A manifest without any icon element passes the two removals unchanged. -/
theorem stripIcons_of_no_icon {s : List Char} (h : countOcc iconOpen.data s = 0) :
    stripIcons s = s := by
  have h1 : removeAll matchIconSrc s = s :=
    removeAllAux_id _ s fun s1 s2 e hs2 =>
      matchIconSrc_none (countOcc_zero_no_start h s1 s2 e hs2)
  have h2 : removeAll matchIconDensity s = s :=
    removeAllAux_id _ s fun s1 s2 e hs2 =>
      matchIconDensity_none (countOcc_zero_no_start h s1 s2 e hs2)
  rw [stripIcons, h1, h2]

theorem newIconLine_split :
    newIconLine.data = "    ".data ++ (iconSrcOpen.data ++
      (installedIconPath.data ++ '"' :: (" />\n".data ++ closeWidget.data))) := by
  decide

theorem apkName_data (a i : String) :
    (apkName a i).data = replaceSpaceRuns a.data ++ ('-' :: (i.data ++ ".apk".data)) := by
  simp [apkName, sanitize, String.data_append]

theorem downloadUrl_data (a i : String) :
    (downloadUrl a i).data = '/' :: (replaceSpaceRuns a.data ++ ('-' :: (i.data ++ ".apk".data))) := by
  simp [downloadUrl, apkName_data, String.data_append]

theorem tail_inj (x y i j : List Char) (hlen : i.length = j.length)
    (h : x ++ ('-' :: (i ++ ".apk".data)) = y ++ ('-' :: (j ++ ".apk".data))) : i = j := by
  have h2 := List.append_inj' h (by simp [hlen])
  have h3 := h2.2
  simp at h3
  exact h3

theorem apkPathOf_eq (proj : Path) :
    apkPathOf proj = proj ++ ["platforms", "android", "app", "build", "outputs", "apk",
      "release", "app-release-unsigned.apk"] := by
  unfold apkPathOf
  repeat rw [pathJoin_cons_proper _ _ _ (by decide)]
  simp [pathJoin_nil]

theorem copyFileSync_keeps_src {fs fs1 : FS} {src dst : Path}
    (h : copyFileSync fs src dst = some fs1) : existsSync fs1 src = true := by
  unfold copyFileSync at h
  cases hr : readFileSync fs src with
  | none => rw [hr] at h; simp at h
  | some content =>
    rw [hr] at h
    have hsrc : stat fs src = some (Node.file content) := by
      unfold readFileSync at hr
      split at hr
      · next c hc => simp at hr; rw [hc, hr]
      · simp at hr
    simp only [Option.some_bind, writeFileSync] at h
    split at h
    · simp only [Option.some.injEq] at h
      subst h
      have hne : src ≠ [] := by
        intro e; subst e; simp [stat] at hsrc
      by_cases hsd : dst = src
      · subst hsd
        simp [existsSync, stat, hne, lookup]
      · have hl : lookup fs src = some (Node.file content) := by
          simpa [stat, hne] using hsrc
        have : lookup (fs.filter fun e => decide (e.1 ≠ dst)) src = lookup fs src := by
          rw [lookup_filter (fun x => decide (x ≠ dst))]
          simp [Ne.symm hsd]
        simp only [existsSync, stat, if_neg hne, lookup, if_neg hsd, this, hl, Option.isSome_some]
    · simp at h

theorem toLower_eq_lt (c : Char) (h : c.toLower = '<') : c = '<' := by
  by_cases hr : c.toNat ≥ 65 ∧ c.toNat ≤ 90
  · exfalso
    have h2 : Char.ofNat (c.toNat + 32) = '<' := by
      simpa only [Char.toLower, hr, and_self, if_true] using h
    generalize c.toNat = n at hr h2
    obtain ⟨h65, h90⟩ := hr
    interval_cases n <;> revert h2 <;> decide
  · simpa only [Char.toLower, hr, if_false] using h

theorem not_mem_lowerAscii {s : List Char} (h : '<' ∉ s) : '<' ∉ lowerAscii s := by
  intro hm
  obtain ⟨c, hc, hl⟩ := List.mem_map.1 hm
  exact h (toLower_eq_lt c hl ▸ hc)

theorem countOcc_of_head_not_mem {c0 : Char} {pat s : List Char} (h : c0 ∉ s) :
    countOcc (c0 :: pat) s = 0 := by
  induction s with
  | nil => rfl
  | cons c cs ih =>
    have hc : c0 ≠ c := fun e => h (by simp [e])
    have hcs : c0 ∉ cs := fun e => h (by simp [e])
    have h1 : ¬ (c0 :: pat).isPrefixOf (c :: cs) = true := by
      simp [List.isPrefixOf, hc]
    simp only [countOcc, if_neg h1, ih hcs]

theorem lowerAscii_append (s t : List Char) : lowerAscii (s ++ t) = lowerAscii s ++ lowerAscii t :=
  List.map_append _ _ _

set_option maxRecDepth 100000 in
theorem wrapperHead_lower_facts :
    countOcc iframeOpen.data (lowerAscii wrapperHead.data) = 0 ∧
      (lowerAscii wrapperHead.data).getLast? = some '>' := by
  decide

set_option maxRecDepth 100000 in
theorem wrapperMidLead_lower_facts :
    countOcc iframeOpen.data (lowerAscii wrapperMidLead.data) = 0 ∧
      (lowerAscii wrapperMidLead.data).head? = some '<' := by
  decide

set_option maxRecDepth 100000 in
theorem wrapperTail_lower_facts :
    countOcc iframeOpen.data (lowerAscii wrapperTail.data) = 0 ∧
      (lowerAscii wrapperTail.data).head? = some '"' := by
  decide

/-- What the manifest rewrite of lines 135-138 does in general: without a `</widget>` in
the text left by the two removals nothing is inserted; otherwise the replacement text
takes the place of the first `</widget>` and the text holds one icon opening more; and a
manifest without any icon opening passes the two removals unchanged. -/
theorem rewriteManifest_shape (m : String) :
    (countOcc closeWidget.data (stripIcons m.data) = 0 →
      (rewriteManifest m).data = stripIcons m.data) ∧
    (countOcc closeWidget.data (stripIcons m.data) ≠ 0 →
      ∃ a b, stripIcons m.data = a ++ (closeWidget.data ++ b) ∧
        NoStart closeWidget.data a (closeWidget.data ++ b) ∧
        (rewriteManifest m).data = a ++ (newIconLine.data ++ b) ∧
        countOcc iconOpen.data (rewriteManifest m).data =
          countOcc iconOpen.data (stripIcons m.data) + 1 ∧
        (countOcc iconOpen.data (stripIcons m.data) = 0 →
          valueAfter iconSrcOpen.data (rewriteManifest m).data = some installedIconPath.data)) ∧
    (countOcc iconOpen.data m.data = 0 → stripIcons m.data = m.data) := by
  refine ⟨fun h0 => replaceFirst_absent _ h0, fun hne => ?_, stripIcons_of_no_icon⟩
  obtain ⟨a, b, hab, hns⟩ := exists_first_occurrence hne
  have hrw : (rewriteManifest m).data = a ++ (newIconLine.data ++ b) := by
    show replaceFirst closeWidget.data newIconLine.data (stripIcons m.data) = _
    rw [hab]
    exact replaceFirst_noStart _ _ (by decide) hns
  have hCb : ∀ x ∈ (closeWidget.data ++ b).head?, x ∉ iconOpen.data.tail := by
    rw [List.head?_append_of_ne_nil _ (by decide)]; decide
  have hNb : ∀ x ∈ (newIconLine.data ++ b).head?, x ∉ iconOpen.data.tail := by
    rw [List.head?_append_of_ne_nil _ (by decide)]; decide
  have hsplit : newIconLine.data ++ b =
      "    <icon src=\"res/icon/android/icon.png\" />\n".data ++ (closeWidget.data ++ b) := by
    rw [← List.append_assoc]
    congr 1
  have hcountN : countOcc iconOpen.data (newIconLine.data ++ b) =
      1 + countOcc iconOpen.data (closeWidget.data ++ b) := by
    rw [hsplit, countOcc_append_of_head hCb]
    congr 1
  have hstrip : countOcc iconOpen.data (stripIcons m.data) =
      countOcc iconOpen.data a + countOcc iconOpen.data (closeWidget.data ++ b) := by
    rw [hab, countOcc_append_of_head hCb]
  refine ⟨a, b, hab, hns, hrw, ?_, ?_⟩
  · rw [hrw, countOcc_append_of_head hNb, hcountN, hstrip]
    omega
  · intro h0
    have ha0 : countOcc iconOpen.data a = 0 := by omega
    have n1 : NoStart iconOpen.data a (newIconLine.data ++ b) := noStart_of_head ha0 hNb
    have e : newIconLine.data ++ b = "    ".data ++ (iconSrcOpen.data ++
        (installedIconPath.data ++ '"' :: (" />\n</widget>".data ++ b))) := by
      rw [newIconLine_split]
      simp [closeWidget]
    have n2 : NoStart iconOpen.data "    ".data (iconSrcOpen.data ++
        (installedIconPath.data ++ '"' :: (" />\n</widget>".data ++ b))) :=
      noStart_of_last (by decide) (by decide)
    rw [hrw, valueAfter_append_noStart (by decide) n1, e,
      valueAfter_append_noStart (by decide) n2, valueAfter_here _ _ (by decide)]
    exact congrArg some (takeWhile_not_quote _ _ (by decide))

/-- The responses of a run in general: a response is a success exactly under the six
conditions and then follows the copy of the artifact; an export is recorded only in a run
that answers with success; and when the three tools succeed and the run reaches the
artifact check, an absent artifact is answered with the failure of line 206 and an
artifact that can be copied with a success. -/
theorem success_shape (d : Path) (i : String) (c p b : ExecOutcome) (z : ZipOutcome)
    (req : Request) (fs0 : FS) :
    (∀ resp fs ev s, generateApk d i c p b z req fs0 = Run.responded resp fs ev s →
      (resp.success = true ↔ SuccessConditions d i c p b z req fs0) ∧
      (resp.success = true → resp = successResponse req.appName i ∧ s = true ∧
        ∃ fs7, stateAtArtifactCheck d i c p b z req fs0 = some fs7 ∧
          copyFileSync fs7 (apkPathOf (projectPathOf d i)) (finalApkPathOf d req.appName i) =
            some fs)) ∧
    ((∃ dst, Event.exported dst ∈ (generateApk d i c p b z req fs0).events) →
      ∃ fs ev, generateApk d i c p b z req fs0 =
        Run.responded (successResponse req.appName i) fs ev true) ∧
    (∀ fs7, c.error = false → p.error = false → b.error = false →
      stateAtArtifactCheck d i c p b z req fs0 = some fs7 →
      (existsSync fs7 (apkPathOf (projectPathOf d i)) = false →
        ∃ ev, generateApk d i c p b z req fs0 =
            Run.responded (failureResponse 500 "APK build failed or APK file not found." none)
              (rmIfExists fs7 (projectPathOf d i)) ev false ∧
          NoExport ev ∧
          (ProperSegment i →
            existsSync (rmIfExists fs7 (projectPathOf d i)) (projectPathOf d i) = false)) ∧
      (∀ content, stat fs7 (apkPathOf (projectPathOf d i)) = some (Node.file content) →
        isDirectory fs7 (finalApkPathOf d req.appName i).dropLast = true →
        isDirectory fs7 (finalApkPathOf d req.appName i) = false →
        ∃ fs ev, generateApk d i c p b z req fs0 =
          Run.responded (successResponse req.appName i) fs ev true)) := by
  refine ⟨?_, ?_, ?_⟩
  · intro resp fs ev s hrun
    rcases generateApk_responded hrun with h | h | h
    · -- scaffolding failure
      obtain ⟨hc, hr, _⟩ := h
      refine ⟨⟨fun hs => ?_, fun hcond => ?_⟩, fun hs => ?_⟩
      · rw [hr] at hs; simp [failureResponse] at hs
      · rw [hcond.1] at hc; simp at hc
      · rw [hr] at hs; simp [failureResponse] at hs
    · -- response from the content stage
      obtain ⟨hc, hdone⟩ := h
      obtain ⟨fs2, _, _, hcase⟩ := installContent_responded hdone
      have hfail : resp.success = false := by
        rcases hcase with ⟨_, _, hr, _⟩ | ⟨_, _, hr, _⟩ <;> rw [hr] <;> rfl
      refine ⟨⟨fun hs => ?_, fun hcond => ?_⟩, fun hs => ?_⟩
      · rw [hfail] at hs; simp at hs
      · rcases hcase with ⟨hx, _⟩ | ⟨hx, _⟩
        · exact absurd hx hcond.2.2.1
        · exact absurd hx hcond.2.1
      · rw [hfail] at hs; simp at hs
    · obtain ⟨hc, fs3, ev3, fs4, hready, hicon, hp⟩ := h
      have hst := stateAtArtifactCheck_of_ready (p := p) (b := b) hready hicon
      have hvalid : ¬ InvalidInput req := (installContent_ready hready).choose_spec.2.1
      have hext := not_extractionFails_of_ready hready
      rcases platformCallback_responded hp with ⟨hpe, fs6, _, hr, _⟩ | ⟨hpe, hb⟩
      · refine ⟨⟨fun hs => ?_, fun hcond => ?_⟩, fun hs => ?_⟩
        · rw [hr] at hs; simp [failureResponse] at hs
        · rw [hcond.2.2.2.1] at hpe; simp at hpe
        · rw [hr] at hs; simp [failureResponse] at hs
      · obtain ⟨fs7, hu, hcase⟩ := buildCallback_responded hb
        rcases hcase with ⟨hbe, hr, _⟩ | ⟨hbe, hna, hr, _⟩ | ⟨hbe, hex, hcp, hr, _, hs1⟩
        · refine ⟨⟨fun hs => ?_, fun hcond => ?_⟩, fun hs => ?_⟩
          · rw [hr] at hs; simp [failureResponse] at hs
          · rw [hcond.2.2.2.2.1] at hbe; simp at hbe
          · rw [hr] at hs; simp [failureResponse] at hs
        · refine ⟨⟨fun hs => ?_, fun hcond => ?_⟩, fun hs => ?_⟩
          · rw [hr] at hs; simp [failureResponse] at hs
          · obtain ⟨fs7', h7, hex⟩ := hcond.2.2.2.2.2
            rw [hst, hu] at h7
            cases h7
            rw [hna] at hex; simp at hex
          · rw [hr] at hs; simp [failureResponse] at hs
        · refine ⟨⟨fun _ => ?_, fun _ => ?_⟩, fun _ => ?_⟩
          · exact ⟨hc, hvalid, hext, hpe, hbe, fs7, by rw [hst, hu], hex⟩
          · rw [hr]; rfl
          · exact ⟨hr, hs1, fs7, by rw [hst, hu], hcp⟩
  · rintro ⟨dst, hm⟩
    rcases generateApk_export d i c p b z req fs0 with h | h
    · exact absurd hm (h dst)
    · exact h
  · intro fs7 hc hp hb h7
    obtain ⟨fs3, ev3, fs4, hready, hicon, hu⟩ := stateAtArtifactCheck_some h7
    have hrun : generateApk d i c p b z req fs0 =
        buildCallback d i b req (b.effect (p.effect fs4))
          (eventsAtPlatformAdd req ev3 ++ [Event.execBuild]) := by
      rw [generateApk_of_ready hc hready hicon, platformCallback_of_ok hp]
    have hev := (eventsAtPlatformAdd_spec req (events_of_ready hready)).2.append_execBuild
    refine ⟨fun hna => ?_, fun content hsrc hdir hdst => ?_⟩
    · exact ⟨_, by rw [hrun, buildCallback_of_missing hb hu hna], hev,
        fun hid => absent_rmIfExists _ _ (projectPathOf_ne_nil d i hid)⟩
    · have hex : existsSync fs7 (apkPathOf (projectPathOf d i)) = true := by
        simp [existsSync, hsrc]
      exact ⟨_, _, by rw [hrun, buildCallback_of_copied hb hu hex (copyFileSync_total hsrc hdir hdst)]⟩

/-! ## The claims -/

/-- C1, evaluated on the code: when `cordova create` fails, the response of line 46 is
sent while both uploaded files still exist; and when the archive extraction throws, the
response of line 103 is sent while the uploaded icon still exists (only the archive was
unlinked). -/
theorem uploads_left_behind :
    (generateApk sampleDirname sampleId scaffoldFails platformOk buildOk zipOk
        sampleRequest sampleFs).response =
      some (failureResponse 500 "Failed to create Cordova project." (some "create failed")) ∧
    (generateApk sampleDirname sampleId scaffoldFails platformOk buildOk zipOk
        sampleRequest sampleFs).fsAtResponse.map
      (fun fs => (existsSync fs sampleZip, existsSync fs sampleIcon)) = some (true, true) ∧
    (generateApk sampleDirname sampleId scaffoldOk platformOk buildOk zipThrows
        archiveRequest sampleFs).response =
      some (failureResponse 500 "Failed to extract zip file." none) ∧
    (generateApk sampleDirname sampleId scaffoldOk platformOk buildOk zipThrows
        archiveRequest sampleFs).fsAtResponse.map
      (fun fs => (existsSync fs sampleZip, existsSync fs sampleIcon)) = some (false, true) := by
  decide

/-- C2 as stated fails: on the success path the response is sent while the workspace
directory still exists; its removal is left to the timer of lines 192-197. -/
theorem workspace_present_at_success_response :
    (generateApk sampleDirname sampleId scaffoldOk platformOk buildOk zipOk
        sampleRequest sampleFs).response = some (successResponse "My App" sampleId) ∧
    (generateApk sampleDirname sampleId scaffoldOk platformOk buildOk zipOk
        sampleRequest sampleFs).fsAtResponse.map
      (fun fs => existsSync fs (projectPathOf sampleDirname sampleId)) = some true := by
  decide

/-- C2, amended: in every run that sends a response, with the project id a proper path
segment as a UUID is: (1) after a successful scaffolding every failure response is sent
with no cleanup pending and in a state without the workspace directory; (2) a success
response is sent with the timer of lines 192-197 set and before the workspace is
removed, the artifact below the workspace directory still existing at that moment;
(3) after a successful scaffolding, once the callbacks the run has scheduled have run,
the workspace directory does not exist; (4) the timer callback changes nothing when the
workspace is already absent, and running it twice is the same as running it once. -/
theorem workspace_removed (d : Path) (i : String) (c p b : ExecOutcome) (z : ZipOutcome)
    (req : Request) (fs0 : FS) (hid : ProperSegment i)
    (resp : Response) (fs : FS) (ev : List Event) (s : Bool)
    (hrun : generateApk d i c p b z req fs0 = Run.responded resp fs ev s) :
    (c.error = false → resp.success = false →
      s = false ∧ existsSync fs (projectPathOf d i) = false) ∧
    (resp.success = true → s = true ∧
      projectPathOf d i <+: apkPathOf (projectPathOf d i) ∧
      existsSync fs (apkPathOf (projectPathOf d i)) = true) ∧
    (c.error = false →
      ∃ fs1, (generateApk d i c p b z req fs0).fsAfterTimer (projectPathOf d i) = some fs1 ∧
        existsSync fs1 (projectPathOf d i) = false) ∧
    (existsSync fs (projectPathOf d i) = false → cleanupTimer (projectPathOf d i) fs = fs) ∧
    cleanupTimer (projectPathOf d i) (cleanupTimer (projectPathOf d i) fs) =
      cleanupTimer (projectPathOf d i) fs := by
  have hne := projectPathOf_ne_nil d i hid
  have hfail : c.error = false → resp.success = false →
      s = false ∧ existsSync fs (projectPathOf d i) = false := by
    intro hc hf
    rcases generateApk_responded hrun with h | h | h
    · rw [hc] at h; simp at h
    · obtain ⟨fs2, _, hs, hcase⟩ := installContent_responded h.2
      rcases hcase with ⟨_, _, _, fs3, _, hfs⟩ | ⟨_, _, _, fs4, _, hfs⟩
      · rw [hfs]; exact ⟨hs, absent_rmIfExists _ _ hne⟩
      · rw [hfs]; exact ⟨hs, absent_rmIfExists _ _ hne⟩
    · obtain ⟨_, fs3, ev3, fs4, _, _, hp⟩ := h
      rcases platformCallback_responded hp with ⟨_, fs6, _, _, hfs, _, hs⟩ | ⟨_, hb⟩
      · rw [hfs]; exact ⟨hs, absent_rmIfExists _ _ hne⟩
      · obtain ⟨fs7, _, hcase⟩ := buildCallback_responded hb
        rcases hcase with ⟨_, _, hfs, _, hs⟩ | ⟨_, _, _, hfs, _, hs⟩ | ⟨_, _, _, hr, _⟩
        · rw [hfs]; exact ⟨hs, absent_rmIfExists _ _ hne⟩
        · rw [hfs]; exact ⟨hs, absent_rmIfExists _ _ hne⟩
        · rw [hr] at hf; simp [successResponse] at hf
  have hsucc : resp.success = true → s = true ∧
      existsSync fs (apkPathOf (projectPathOf d i)) = true := by
    intro hs
    obtain ⟨_, hs1, _, fs7, hcp⟩ := generateApk_success hrun hs
    exact ⟨hs1, copyFileSync_keeps_src hcp⟩
  refine ⟨hfail, fun hs => ⟨(hsucc hs).1, ?_, (hsucc hs).2⟩, fun hc => ?_, fun ha => ?_, ?_⟩
  · rw [apkPathOf_eq]; exact List.prefix_append _ _
  · rw [hrun]
    cases s with
    | true => exact ⟨_, rfl, absent_rmIfExists _ _ hne⟩
    | false =>
      refine ⟨fs, rfl, ?_⟩
      cases hsv : resp.success with
      | false => exact (hfail hc hsv).2
      | true => have := (hsucc hsv).1; simp at this
  · simp [cleanupTimer, rmIfExists, ha]
  · have h2 : ∀ g : FS, existsSync g (projectPathOf d i) = false →
        rmIfExists g (projectPathOf d i) = g := fun g hg => by simp [rmIfExists, hg]
    exact h2 _ (absent_rmIfExists fs _ hne)

/-- C2, witness: a run whose build fails, and a run that succeeds, after its timer. -/
theorem workspace_removed_witness :
    ProperSegment sampleId ∧
    existsSync
      ((generateApk sampleDirname sampleId scaffoldOk platformOk buildFails zipOk
        sampleRequest sampleFs).fsAtResponse.getD sampleFs)
      (projectPathOf sampleDirname sampleId) = false ∧
    ((generateApk sampleDirname sampleId scaffoldOk platformOk buildOk zipOk
        sampleRequest sampleFs).fsAfterTimer (projectPathOf sampleDirname sampleId)).map
      (fun fs => existsSync fs (projectPathOf sampleDirname sampleId)) = some false := by
  refine ⟨by decide, ?_, ?_⟩
  · exact ((workspace_removed sampleDirname sampleId scaffoldOk platformOk buildFails zipOk
      sampleRequest sampleFs (by decide)
      (failureResponse 500 "Failed to build Android app." (some "gradle failed"))
      ((generateApk sampleDirname sampleId scaffoldOk platformOk buildFails zipOk
        sampleRequest sampleFs).fsAtResponse.getD sampleFs)
      ((generateApk sampleDirname sampleId scaffoldOk platformOk buildFails zipOk
        sampleRequest sampleFs).events) false (by rfl)).1 rfl rfl).2
  · obtain ⟨fs1, h1, h2⟩ :=
      (workspace_removed sampleDirname sampleId scaffoldOk platformOk buildOk zipOk
        sampleRequest sampleFs (by decide) (successResponse "My App" sampleId)
        ((generateApk sampleDirname sampleId scaffoldOk platformOk buildOk zipOk
          sampleRequest sampleFs).fsAtResponse.getD sampleFs)
        ((generateApk sampleDirname sampleId scaffoldOk platformOk buildOk zipOk
          sampleRequest sampleFs).events) true (by rfl)).2.2.1 rfl
    rw [h1, Option.map_some', h2]

/-- C3, evaluated on the code: a manifest whose icon declaration has `src` before
`density` matches neither pattern of lines 135-136, so that the declaration is kept, the
rewritten text holds two icon elements, and this is the text the icon installer writes
back to `config.xml`. -/
theorem manifest_keeps_old_icon :
    rewriteManifest manifestWithIcon =
      "<widget><icon src=\"res/android/ldpi.png\" density=\"ldpi\" />" ++
        "    <icon src=\"res/icon/android/icon.png\" />\n</widget>" ∧
    countOcc iconOpen.data (rewriteManifest manifestWithIcon).data = 2 ∧
    ((installIcon sampleRequest sampleProject (scaffoldWithIcon.effect sampleFs)).bind
        fun fs => readFileSync fs (sampleProject ++ ["config.xml"])) =
      some (rewriteManifest manifestWithIcon) := by
  decide

/-- C4 as stated fails: a URL that holds a double quote ends the `src` attribute early
and here opens a second frame element. -/
theorem wrapper_url_with_quote :
    frameOpenings (wrapper "My App" quotedUrl).data = 2 ∧
    valueAfter iframeSrcOpen.data (wrapper "My App" quotedUrl).data = some "x".data := by
  set_option maxRecDepth 100000 in decide

/-- C4, amended: when `appName` holds no `<` and `url` holds neither a double quote nor an
opening of a frame element (in any case of letters), the wrapper document holds exactly
one opening of a frame element, the tag name read without regard to case, and the text of
its `src` attribute, up to the closing quote, is `url` character for character. -/
theorem wrapper_single_iframe (a u : String)
    (ha : '<' ∉ a.data) (hu : frameOpenings u.data = 0) (hq : '"' ∉ u.data) :
    frameOpenings (wrapper a u).data = 1 ∧
    valueAfter iframeSrcOpen.data (wrapper a u).data = some u.data := by
  have hT := wrapperTail_facts.2
  constructor
  · -- the lowered text
    have hla : countOcc iframeOpen.data (lowerAscii a.data) = 0 :=
      countOcc_of_head_not_mem (not_mem_lowerAscii ha)
    have n1 : NoStart iframeOpen.data (lowerAscii wrapperHead.data)
        (lowerAscii a.data ++ (lowerAscii wrapperMidLead.data ++
          (lowerAscii iframeSrcOpen.data ++ (lowerAscii u.data ++ lowerAscii wrapperTail.data)))) :=
      noStart_of_last wrapperHead_lower_facts.1 (by rw [wrapperHead_lower_facts.2]; decide)
    have n2 : NoStart iframeOpen.data (lowerAscii a.data)
        (lowerAscii wrapperMidLead.data ++
          (lowerAscii iframeSrcOpen.data ++ (lowerAscii u.data ++ lowerAscii wrapperTail.data))) :=
      noStart_of_head hla (by
        rw [List.head?_append_of_ne_nil _ (by decide), wrapperMidLead_lower_facts.2]; decide)
    have n3 : NoStart iframeOpen.data (lowerAscii wrapperMidLead.data)
        (lowerAscii iframeSrcOpen.data ++ (lowerAscii u.data ++ lowerAscii wrapperTail.data)) :=
      noStart_of_head wrapperMidLead_lower_facts.1 (by
        rw [List.head?_append_of_ne_nil _ (by decide)]; decide)
    have hcount : countOcc iframeOpen.data (lowerAscii iframeSrcOpen.data ++
        (lowerAscii u.data ++ lowerAscii wrapperTail.data)) = 1 := by
      rw [countOcc_append_of_last _ _ (by decide),
        countOcc_append_of_head (by rw [wrapperTail_lower_facts.2]; decide),
        show countOcc iframeOpen.data (lowerAscii u.data) = 0 from hu, wrapperTail_lower_facts.1]
      decide
    unfold frameOpenings
    rw [wrapper_data]
    simp only [lowerAscii_append]
    rw [countOcc_append_noStart n1, countOcc_append_noStart n2, countOcc_append_noStart n3, hcount]
  · have ha0 : countOcc iframeOpen.data a.data = 0 := countOcc_of_head_not_mem ha
    have n1 : NoStart iframeOpen.data wrapperHead.data
        (a.data ++ (wrapperMidLead.data ++ (iframeSrcOpen.data ++ (u.data ++ wrapperTail.data)))) :=
      noStart_of_last wrapperHead_facts.1 (by rw [wrapperHead_facts.2]; decide)
    have n2 : NoStart iframeOpen.data a.data
        (wrapperMidLead.data ++ (iframeSrcOpen.data ++ (u.data ++ wrapperTail.data))) :=
      noStart_of_head ha0 (by
        rw [List.head?_append_of_ne_nil _ (by decide), wrapperMidLead_facts.2]; decide)
    have n3 : NoStart iframeOpen.data wrapperMidLead.data
        (iframeSrcOpen.data ++ (u.data ++ wrapperTail.data)) :=
      noStart_of_head wrapperMidLead_facts.1 (by
        rw [List.head?_append_of_ne_nil _ (by decide)]; decide)
    rw [wrapper_data, valueAfter_append_noStart (by decide) n1,
      valueAfter_append_noStart (by decide) n2,
      valueAfter_append_noStart (by decide) n3, valueAfter_here _ _ (by decide), hT,
      takeWhile_not_quote _ _ hq]

/-- C4, witness: a plain name and URL. -/
theorem wrapper_single_iframe_witness :
    frameOpenings (wrapper "My App" "https://example.com/").data = 1 ∧
    valueAfter iframeSrcOpen.data (wrapper "My App" "https://example.com/").data =
      some "https://example.com/".data :=
  wrapper_single_iframe "My App" "https://example.com/" (by decide) (by decide) (by decide)

/-- C5 as stated fails: with the display name `../x` the export path normalises to a
file next to the public directory, not inside it, and the run copies the artifact
there and answers with success. -/
theorem export_escapes_public :
    finalApkPathOf sampleDirname "../x" sampleId = ["srv", "x-7c9e.apk"] ∧
    (generateApk sampleDirname sampleId scaffoldOk platformOk buildOk zipOk
        traversalRequest sampleFs).response = some (successResponse "../x" sampleId) ∧
    (generateApk sampleDirname sampleId scaffoldOk platformOk buildOk zipOk
        traversalRequest sampleFs).fsAtResponse.map
      (fun fs => (readFileSync fs ["srv", "x-7c9e.apk"],
        existsSync fs ["srv", "public", "x-7c9e.apk"])) = some (some "APK", false) := by
  decide

/-- C5, amended: when neither `appName` nor the project id holds a slash, the export path
is the file `name(appName, id)` directly inside the public directory, that name is a
single proper path segment, the download URL is `/` followed by that name, and every run
that answers with success has recorded the export to that path and left a file there. -/
theorem export_inside_public (d : Path) (a i : String) (ha : '/' ∉ a.data) (hi : '/' ∉ i.data) :
    finalApkPathOf d a i = d ++ ["public", apkName a i] ∧
    ProperSegment (apkName a i) ∧
    downloadUrl a i = "/" ++ apkName a i ∧
    (∀ (c p b : ExecOutcome) (z : ZipOutcome) (req : Request) (fs0 fs : FS) (resp : Response)
        (ev : List Event) (s : Bool),
      req.appName = a →
      generateApk d i c p b z req fs0 = Run.responded resp fs ev s → resp.success = true →
      resp.downloadUrl = some ("/" ++ apkName a i) ∧
      Event.exported (d ++ ["public", apkName a i]) ∈ ev ∧
      ∃ content, readFileSync fs (d ++ ["public", apkName a i]) = some content) := by
  refine ⟨finalApkPathOf_eq d a i ha hi, apkName_proper a i ha hi, rfl, ?_⟩
  intro c p b z req fs0 fs resp ev s hreq hrun hs
  obtain ⟨hr, _, hev, fs7, hcp⟩ := generateApk_success hrun hs
  rw [hreq, finalApkPathOf_eq d a i ha hi] at hev hcp
  obtain ⟨content, _, hread⟩ := copyFileSync_some hcp
  exact ⟨by rw [hr, hreq]; rfl, hev, content, hread⟩

/-- C5, witness: the display name `My App`. -/
theorem export_inside_public_witness :
    finalApkPathOf sampleDirname "My App" sampleId =
      sampleDirname ++ ["public", apkName "My App" sampleId] :=
  (export_inside_public sampleDirname "My App" sampleId (by decide) (by decide)).1

/-- C6 as stated fails: with empty inline markup the run answers 400, and with a slash
in the display name the copy of line 188 throws, so that no response is sent, although
all three tools succeed and the artifact exists. -/
theorem inline_markup_not_always_success :
    (generateApk sampleDirname sampleId scaffoldOk platformOk buildOk zipOk
        emptyMarkupRequest sampleFs).response =
      some (failureResponse 400 "Invalid input type or missing data." none) ∧
    (generateApk sampleDirname sampleId scaffoldOk platformOk buildOk zipOk
        slashRequest sampleFs).response = none := by
  decide

/-- C6, amended: for a request of type `html_code` with non-empty markup and no icon,
when the three tools exit successfully and scaffolding leaves a tree of proper names with
the content root, then (2) the content stage leaves `index.html` with the markup as its
content, and (1) if in the state the build tool leaves the artifact is a regular file,
the directory of the export path exists, the export path is no directory and an uploaded
archive is neither a directory nor the artifact, the run answers with
`{success: true, downloadUrl}`, the URL being `/`, the sanitised name, `-`, the project
id and `.apk`, and the artifact is copied to the export path; the sanitised name holds
no whitespace, and `My App` becomes `My_App`. -/
theorem inline_markup_build (d : Path) (i : String) (c p b : ExecOutcome) (z : ZipOutcome)
    (req : Request) (fs0 : FS) (h : String)
    (htype : req.type = some "html_code") (hhtml : req.htmlCode = some h) (hne : h ≠ "")
    (hnoicon : req.iconFile = none)
    (hc : c.error = false) (hp : p.error = false) (hb : b.error = false)
    (htree : ProperTree (c.effect fs0))
    (hwww : isDirectory (c.effect fs0) (pathJoin (projectPathOf d i) ["www"]) = true) :
    ∃ fs3, installContent z req (projectPathOf d i) (c.effect fs0) =
        Staged.ready fs3 [Event.execCreate, Event.wroteIndex] ∧
      readFileSync fs3 (pathJoin (pathJoin (projectPathOf d i) ["www"]) ["index.html"]) = some h ∧
      (∀ content, UploadsRemovable req (b.effect (p.effect fs3)) →
        req.zipFile ≠ some (apkPathOf (projectPathOf d i)) →
        stat (b.effect (p.effect fs3)) (apkPathOf (projectPathOf d i)) = some (Node.file content) →
        isDirectory (b.effect (p.effect fs3)) (finalApkPathOf d req.appName i).dropLast = true →
        isDirectory (b.effect (p.effect fs3)) (finalApkPathOf d req.appName i) = false →
        ∃ fs ev, generateApk d i c p b z req fs0 =
            Run.responded
              { status := 200, success := true, message := none, error := none,
                downloadUrl := some ("/" ++ (sanitize req.appName ++ "-" ++ i ++ ".apk")) }
              fs ev true ∧
          readFileSync fs (finalApkPathOf d req.appName i) = some content) ∧
      (∀ ch ∈ (sanitize req.appName).data, isJsSpace ch = false) ∧
      (req.appName = "My App" → sanitize req.appName = "My_App") := by
  obtain ⟨fs3, hready, hread⟩ := installContent_markup (z := z) htype hhtml hne htree hwww
  refine ⟨fs3, hready, hread, ?_, sanitize_no_space _, fun ha => by rw [ha]; decide⟩
  intro content hup hzne hsrc hdir hdst
  obtain ⟨fs7, hu⟩ := unlinkIfExists_total _ req.zipFile hup.1
  have hchain : ((unlinkIfExists (b.effect (p.effect fs3)) req.zipFile).bind fun x =>
      unlinkIfExists x req.iconFile) = some fs7 := by
    rw [hu, hnoicon]
    rfl
  have hsrc7 : stat fs7 (apkPathOf (projectPathOf d i)) = some (Node.file content) := by
    rw [stat_unlinkIfExists_ne hu _ hzne, hsrc]
  have hdir7 : isDirectory fs7 (finalApkPathOf d req.appName i).dropLast = true := by
    have : req.zipFile ≠ some (finalApkPathOf d req.appName i).dropLast := by
      intro e
      have := hup.1 _ e
      rw [hdir] at this
      simp at this
    unfold isDirectory at *
    rw [stat_unlinkIfExists_ne hu _ this]
    exact hdir
  have hdst7 := isDirectory_of_shrinks (shrinks_unlinkIfExists hu) hdst
  have hne' : finalApkPathOf d req.appName i ≠ [] := by
    intro e
    rw [e] at hdst7
    simp [isDirectory, stat] at hdst7
  have hrun := (generateApk_of_ready (p := p) (b := b) hc hready
    (installIcon_none _ _ hnoicon)).trans ((platformCallback_of_ok hp).trans
      (buildCallback_of_copied hb hchain (by simp [existsSync, hsrc7])
        (copyFileSync_total hsrc7 hdir7 hdst7)))
  exact ⟨_, _, hrun, readFileSync_head _ _ _ hne'⟩

/-- C6, witness: the scenario of the specification. -/
theorem inline_markup_build_witness :
    (generateApk sampleDirname sampleId scaffoldOk platformOk buildOk zipOk
        markupRequest sampleFs).response =
      some { status := 200, success := true, message := none, error := none,
             downloadUrl := some "/My_App-7c9e.apk" } := by
  obtain ⟨fs3, hready, _, hrun, _⟩ :=
    inline_markup_build sampleDirname sampleId scaffoldOk platformOk buildOk zipOk
      markupRequest sampleFs "<h1>hi</h1>" rfl rfl (by decide) rfl rfl rfl rfl
      (by decide) (by decide)
  have e : fs3 = (installContent zipOk markupRequest (projectPathOf sampleDirname sampleId)
      (scaffoldOk.effect sampleFs)).state.getD [] := by
    rw [hready]; rfl
  subst e
  obtain ⟨fs, ev, h, _⟩ := hrun "APK" (by decide) (by decide) (by decide) (by decide) (by decide)
  rw [h]
  rfl

/-- C7: two download URLs built from project ids of equal length that differ are
different strings, whatever the two display names are, and so are the two export file
names. -/
theorem download_urls_distinct (a1 a2 id1 id2 : String) (hne : id1 ≠ id2) (hlen : id1.length = id2.length) :
    downloadUrl a1 id1 ≠ downloadUrl a2 id2 ∧ apkName a1 id1 ≠ apkName a2 id2 := by
  have hl : id1.data.length = id2.data.length := hlen
  constructor
  · intro h
    have h1 := congrArg String.data h
    rw [downloadUrl_data, downloadUrl_data] at h1
    simp only [List.cons.injEq, true_and] at h1
    exact hne (String.ext (tail_inj _ _ _ _ hl h1))
  · intro h
    have h1 := congrArg String.data h
    rw [apkName_data, apkName_data] at h1
    exact hne (String.ext (tail_inj _ _ _ _ hl h1))

/-- C7, witness: one display name, two project ids. -/
theorem download_urls_distinct_witness :
    downloadUrl "My App" "7c9e" ≠ downloadUrl "My App" "7c9f" ∧
    apkName "My App" "7c9e" ≠ apkName "My App" "7c9f" :=
  download_urls_distinct "My App" "My App" "7c9e" "7c9f" (by decide) (by decide)

/-- C8: for a request that selects none of the three input variants, once scaffolding
has succeeded (the tool exits successfully and leaves a tree of proper names with the
content root, the uploads not being directories), the wipe completes and the run answers
400 with `Invalid input type or missing data.`; the only recorded step is the
scaffolding (no write of content, no platform or build tool), the state at the response
is without the workspace directory and arises from the wiped state by removals only. -/
theorem invalid_input_rejected (d : Path) (i : String) (c p b : ExecOutcome) (z : ZipOutcome)
    (req : Request) (fs0 : FS) (hid : ProperSegment i) (hc : c.error = false)
    (htree : ProperTree (c.effect fs0))
    (hwww : isDirectory (c.effect fs0) (pathJoin (projectPathOf d i) ["www"]) = true)
    (hup : UploadsRemovable req (c.effect fs0))
    (hinv : InvalidInput req) :
    ∃ fs2 fs, cleanWww (c.effect fs0) (pathJoin (projectPathOf d i) ["www"]) = some fs2 ∧
      generateApk d i c p b z req fs0 =
        Run.responded (failureResponse 400 "Invalid input type or missing data." none) fs
          [Event.execCreate] false ∧
      existsSync fs (projectPathOf d i) = false ∧ Shrinks fs2 fs := by
  obtain ⟨fs2, hcw, hs2, _, _⟩ := cleanWww_spec _ _ htree hwww
  obtain ⟨fs4, hu⟩ := unlinkUploads_total req fs2 (hup.shrinks hs2)
  refine ⟨fs2, rmIfExists fs4 (projectPathOf d i), hcw, ?_, ?_, ?_⟩
  · exact generateApk_of_done hc (installContent_invalid hinv hcw hu)
  · exact absent_rmIfExists _ _ (projectPathOf_ne_nil d i hid)
  · exact (uploads_absent hu).1.trans (shrinks_rmIfExists _ _)

/-- C8, witness: an unsupported `type`. -/
theorem invalid_input_rejected_witness :
    InvalidInput unsupportedRequest ∧
    (generateApk sampleDirname sampleId scaffoldOk platformOk buildOk zipOk
        unsupportedRequest sampleFs).response =
      some (failureResponse 400 "Invalid input type or missing data." none) := by
  obtain ⟨fs2, fs, _, h, _⟩ :=
    invalid_input_rejected sampleDirname sampleId scaffoldOk platformOk buildOk zipOk
      unsupportedRequest sampleFs (by decide) rfl (by decide) (by decide) (by decide) (by decide)
  exact ⟨by decide, by rw [h]; rfl⟩

/-- C9: for a request that passes content and icon installation, when the platform tool
exits non-zero (and the uploads are not directories in the state it leaves) the run
answers 500 with `error` equal to the captured `stderr`, the build tool is not invoked,
nothing is exported, the state arises from the one the tool left by removals only, and
neither the uploaded files nor the workspace directory exist in it. The same holds when
the platform tool succeeds and the build tool exits non-zero. -/
theorem tool_failure_reported (d : Path) (i : String) (c p b : ExecOutcome) (z : ZipOutcome)
    (req : Request) (fs0 fs3 fs4 : FS) (ev3 : List Event)
    (hid : ProperSegment i) (hc : c.error = false)
    (hcontent : installContent z req (projectPathOf d i) (c.effect fs0) = Staged.ready fs3 ev3)
    (hicon : installIcon req (projectPathOf d i) fs3 = some fs4) :
    (p.error = true → UploadsRemovable req (p.effect fs4) →
      ∃ fs, generateApk d i c p b z req fs0 =
          Run.responded (failureResponse 500 "Failed to add Android platform." (some p.stderr))
            fs (eventsAtPlatformAdd req ev3) false ∧
        Event.execBuild ∉ eventsAtPlatformAdd req ev3 ∧
        NoExport (eventsAtPlatformAdd req ev3) ∧
        Shrinks (p.effect fs4) fs ∧
        (∀ q, req.zipFile = some q → existsSync fs q = false) ∧
        (∀ q, req.iconFile = some q → existsSync fs q = false) ∧
        existsSync fs (projectPathOf d i) = false) ∧
    (p.error = false → b.error = true → UploadsRemovable req (b.effect (p.effect fs4)) →
      ∃ fs, generateApk d i c p b z req fs0 =
          Run.responded (failureResponse 500 "Failed to build Android app." (some b.stderr))
            fs (eventsAtPlatformAdd req ev3 ++ [Event.execBuild]) false ∧
        NoExport (eventsAtPlatformAdd req ev3 ++ [Event.execBuild]) ∧
        Shrinks (b.effect (p.effect fs4)) fs ∧
        (∀ q, req.zipFile = some q → existsSync fs q = false) ∧
        (∀ q, req.iconFile = some q → existsSync fs q = false) ∧
        existsSync fs (projectPathOf d i) = false) := by
  have hne := projectPathOf_ne_nil d i hid
  have hev := eventsAtPlatformAdd_spec req (events_of_ready hcontent)
  have hrun := generateApk_of_ready (p := p) (b := b) hc hcontent hicon
  constructor
  · intro hp hup
    obtain ⟨fs6, hu⟩ := unlinkUploads_total req _ hup
    obtain ⟨hs, hz, hi⟩ := uploads_absent hu
    refine ⟨rmIfExists fs6 (projectPathOf d i), ?_, hev.1, hev.2,
      hs.trans (shrinks_rmIfExists _ _), ?_, ?_, absent_rmIfExists _ _ hne⟩
    · rw [hrun, platformCallback_of_error hp hu]
    · exact fun q hq => (shrinks_rmIfExists _ _).absent (hz q hq)
    · exact fun q hq => (shrinks_rmIfExists _ _).absent (hi q hq)
  · intro hp hb hup
    obtain ⟨fs7, hu⟩ := unlinkUploads_total req _ hup
    obtain ⟨hs, hz, hi⟩ := uploads_absent hu
    refine ⟨rmIfExists fs7 (projectPathOf d i), ?_, ?_,
      hs.trans (shrinks_rmIfExists _ _), ?_, ?_, absent_rmIfExists _ _ hne⟩
    · rw [hrun, platformCallback_of_ok hp, buildCallback_of_error hb hu]
    · intro dst hm
      rcases List.mem_append.1 hm with h | h
      · exact hev.2 dst h
      · simp at h
    · exact fun q hq => (shrinks_rmIfExists _ _).absent (hz q hq)
    · exact fun q hq => (shrinks_rmIfExists _ _).absent (hi q hq)

/-- C9, witness: a failing platform tool and a failing build tool. -/
theorem tool_failure_reported_witness :
    (generateApk sampleDirname sampleId scaffoldOk platformFails buildOk zipOk
        sampleRequest sampleFs).response =
      some (failureResponse 500 "Failed to add Android platform." (some "no sdk")) ∧
    (generateApk sampleDirname sampleId scaffoldOk platformOk buildFails zipOk
        sampleRequest sampleFs).response =
      some (failureResponse 500 "Failed to build Android app." (some "gradle failed")) := by
  constructor
  · obtain ⟨fs, h, _⟩ :=
      (tool_failure_reported sampleDirname sampleId scaffoldOk platformFails buildOk zipOk
        sampleRequest sampleFs
        ((installContent zipOk sampleRequest (projectPathOf sampleDirname sampleId)
          (scaffoldOk.effect sampleFs)).state.getD [])
        ((installIcon sampleRequest (projectPathOf sampleDirname sampleId)
          ((installContent zipOk sampleRequest (projectPathOf sampleDirname sampleId)
            (scaffoldOk.effect sampleFs)).state.getD [])).getD [])
        ((installContent zipOk sampleRequest (projectPathOf sampleDirname sampleId)
          (scaffoldOk.effect sampleFs)).events)
        (by decide) rfl (by rfl) (by rfl)).1 rfl (by decide)
    rw [h]; rfl
  · obtain ⟨fs, h, _⟩ :=
      (tool_failure_reported sampleDirname sampleId scaffoldOk platformOk buildFails zipOk
        sampleRequest sampleFs
        ((installContent zipOk sampleRequest (projectPathOf sampleDirname sampleId)
          (scaffoldOk.effect sampleFs)).state.getD [])
        ((installIcon sampleRequest (projectPathOf sampleDirname sampleId)
          ((installContent zipOk sampleRequest (projectPathOf sampleDirname sampleId)
            (scaffoldOk.effect sampleFs)).state.getD [])).getD [])
        ((installContent zipOk sampleRequest (projectPathOf sampleDirname sampleId)
          (scaffoldOk.effect sampleFs)).events)
        (by decide) rfl (by rfl) (by rfl)).2 rfl rfl (by decide)
    rw [h]; rfl

/-- C10, evaluated on the code: with a slash in the display name all six conditions
hold (the three tools succeed, the request selects inline markup, nothing is extracted,
the artifact exists when line 185 checks for it), yet the copy of line 188 throws inside
the build callback, which the `try` of line 41 does not enclose, and the run sends no
response. -/
theorem conditions_without_success :
    SuccessConditions sampleDirname sampleId scaffoldOk platformOk buildOk zipOk
      slashRequest sampleFs ∧
    (generateApk sampleDirname sampleId scaffoldOk platformOk buildOk zipOk
        slashRequest sampleFs).response = none :=
  ⟨⟨rfl, by decide, by decide, rfl, rfl,
    (stateAtArtifactCheck sampleDirname sampleId scaffoldOk platformOk buildOk zipOk
      slashRequest sampleFs).getD [], by rfl, by decide⟩, by decide⟩

end Studio
